import Mathlib

/-!
Verification of the sudoers Defaults-callback registry and iolog path escape
generators (plugins/sudoers/callbacks.c, stubs.c, iolog_path_escapes.c).

C strings are modelled as `List Char` held in an explicit heap so that
pointer identity (aliasing of the short host name with the long host name,
and sharing of host strings across the user and runas contexts) is visible:
an `Addr` is an index into the heap's allocation list, and two context
fields alias exactly when they hold the same `Addr`.  Allocation draws from
an `okStream` oracle (empty stream means every allocation succeeds), which
models `malloc`/`strdup` failure paths without losing executability.
-/

set_option maxHeartbeats 1000000
set_option maxRecDepth 4000

namespace Sudoers

/-- A C string: a NUL-free character list. -/
abbrev CStr := List Char

/-- A heap address (index of an allocation). -/
abbrev Addr := Nat

/-- The allocation heap.  `cells` holds every allocation ever made (addresses
are never reused, so "independent allocation" is address inequality);
`okStream` is the oracle deciding whether successive allocations succeed
(empty = always succeed); `freed` records addresses passed to `free`. -/
structure Heap where
  cells : List CStr
  okStream : List Bool
  freed : List Addr
deriving Repr, DecidableEq

/-- `malloc`/`strdup`: consume one oracle entry; on success the new string is
appended and its fresh address returned. -/
def Heap.alloc : Heap → CStr → Option Addr × Heap
  | ⟨cells, [], freed⟩, s => (some cells.length, ⟨cells ++ [s], [], freed⟩)
  | ⟨cells, ok :: rest, freed⟩, s =>
      if ok then (some cells.length, ⟨cells ++ [s], rest, freed⟩)
      else (none, ⟨cells, rest, freed⟩)

/-- `free(3)`: recorded only; contents stay readable since addresses are
never reused in this model. -/
def Heap.free (h : Heap) (a : Addr) : Heap :=
  ⟨h.cells, h.okStream, a :: h.freed⟩

/-- Read the string stored at an address. -/
def Heap.get (h : Heap) (a : Addr) : CStr :=
  h.cells.getD a []

/-- The predicate `strchr(s, '.')` uses to stop: character is not a dot. -/
def noDot (c : Char) : Bool := c != '.'

/-- getaddrinfo error code for memory exhaustion. -/
def EAI_MEMORY : Int := -10

/-- `resolve_host()` from callbacks.c: ask the name service (the `gai`
oracle, modelling `getaddrinfo` with `AI_FQDN`) for the canonical name,
`strdup` it as the long name, and derive the short name: `strndup` of the
part before the first `.` if there is one, otherwise the very same
allocation (`sname = lname`).  On failure the out parameters are unchanged,
which we model by returning only an error code. -/
def resolve_host (gai : CStr → Except Int CStr) (h : Heap) (host : CStr) :
    Except Int (Addr × Addr) × Heap :=
  match gai host with
  | .error e => (.error e, h)
  | .ok canon =>
    match h.alloc canon with
    | (none, h1) => (.error EAI_MEMORY, h1)
    | (some lname, h1) =>
      if canon.contains '.' then
        match h1.alloc (canon.takeWhile noDot) with
        | (none, h2) => (.error EAI_MEMORY, h2.free lname)
        | (some sname, h2) => (.ok (lname, sname), h2)
      else
        (.ok (lname, lname), h1)

/-- An identity context's host fields: `host` (long) and `shost` (short),
as heap addresses.  `shost = host` is the tracked alias case. -/
structure Ctx where
  host : Addr
  shost : Addr
deriving Repr, DecidableEq

/-- The pieces of global state `cb_fqdn` and `get_hostname` touch:
the heap plus the invoking (`user_ctx`) and target (`runas_ctx`) contexts. -/
structure HostState where
  heap : Heap
  user_ctx : Ctx
  runas_ctx : Ctx
deriving Repr, DecidableEq

/-- All four host addresses point at real allocations. -/
def HostState.Wf (st : HostState) : Prop :=
  st.user_ctx.host < st.heap.cells.length ∧
  st.user_ctx.shost < st.heap.cells.length ∧
  st.runas_ctx.host < st.heap.cells.length ∧
  st.runas_ctx.shost < st.heap.cells.length

instance (st : HostState) : Decidable st.Wf := by
  unfold HostState.Wf; infer_instance

/-- cb_fqdn lines 124-128: free the invoking context's old strings per the
aliasing discipline, then install the newly resolved pair. -/
def fqdn_install_user (st : HostState) (lhost shost : Addr) : HostState :=
  let h1 := if st.user_ctx.shost ≠ st.user_ctx.host
            then st.heap.free st.user_ctx.shost else st.heap
  ⟨h1.free st.user_ctx.host, ⟨lhost, shost⟩, st.runas_ctx⟩

/-- cb_fqdn lines 155-159: same ownership discipline for the target context. -/
def fqdn_install_runas (st : HostState) (lhost shost : Addr) : HostState :=
  let h1 := if st.runas_ctx.shost ≠ st.runas_ctx.host
            then st.heap.free st.runas_ctx.shost else st.heap
  ⟨h1.free st.runas_ctx.host, st.user_ctx, ⟨lhost, shost⟩⟩

/-- cb_fqdn lines 131-160: the runas phase, entered after the invoking
context has been updated.  If `remote`, resolve the target host (single
attempt); otherwise duplicate the invoking context's strings, preserving
the alias relationship.  The third component lists the names sent to the
name service, for the resolution-count claims. -/
def fqdn_runas (gai : CStr → Except Int CStr) (remote : Bool) (st : HostState) :
    Bool × HostState × List CStr :=
  if remote then
    let name := st.heap.get st.runas_ctx.host
    match resolve_host gai st.heap name with
    | (.error _, h) => (false, ⟨h, st.user_ctx, st.runas_ctx⟩, [name])
    | (.ok (lhost, shost), h) =>
        (true, fqdn_install_runas ⟨h, st.user_ctx, st.runas_ctx⟩ lhost shost, [name])
  else
    match st.heap.alloc (st.heap.get st.user_ctx.host) with
    | (none, h) => (false, ⟨h, st.user_ctx, st.runas_ctx⟩, [])
    | (some lhost, h) =>
        if st.user_ctx.shost ≠ st.user_ctx.host then
          match h.alloc (h.get st.user_ctx.shost) with
          | (none, h2) => (false, ⟨h2.free lhost, st.user_ctx, st.runas_ctx⟩, [])
          | (some shost, h2) =>
              (true, fqdn_install_runas ⟨h2, st.user_ctx, st.runas_ctx⟩ lhost shost, [])
        else
          (true, fqdn_install_runas ⟨h, st.user_ctx, st.runas_ctx⟩ lhost lhost, [])

/-- `cb_fqdn()` from callbacks.c.  `sd_un = none` models a NULL pointer,
`some b` the fqdn flag.  Returns the bool result, the new state, and the
list of host names sent to the name service. -/
def cb_fqdn (gai : CStr → Except Int CStr) (sd_un : Option Bool) (st : HostState) :
    Bool × HostState × List CStr :=
  -- Nothing to do if fqdn flag is disabled.
  if sd_un = some false then (true, st, [])
  else
    -- If the -h flag was given we need to resolve both host names.
    let remote := decide (st.heap.get st.runas_ctx.host ≠ st.heap.get st.user_ctx.host)
    -- First resolve user_ctx.host, setting host and shost.
    let uname := st.heap.get st.user_ctx.host
    match resolve_host gai st.heap uname with
    | (.error _, h1) =>
        let rname := h1.get st.runas_ctx.host
        match resolve_host gai h1 rname with
        | (.error _, h2) => (false, ⟨h2, st.user_ctx, st.runas_ctx⟩, [uname, rname])
        | (.ok (lhost, shost), h2) =>
            let st1 := fqdn_install_user ⟨h2, st.user_ctx, st.runas_ctx⟩ lhost shost
            let r := fqdn_runas gai remote st1
            (r.1, r.2.1, uname :: rname :: r.2.2)
    | (.ok (lhost, shost), h1) =>
        let st1 := fqdn_install_user ⟨h1, st.user_ctx, st.runas_ctx⟩ lhost shost
        let r := fqdn_runas gai remote st1
        (r.1, r.2.1, uname :: r.2.2)

/-- The `strdup("localhost")` fallback branch of `get_hostname()`. -/
def gh_localhost (h : Heap) : Option HostState :=
  match h.alloc ("localhost".toList) with
  | (some a, h1) => some ⟨h1, ⟨a, a⟩, ⟨a, a⟩⟩
  | (none, _) => none  -- sudo_fatalx: unable to allocate memory

/-- `get_hostname()` from stubs.c.  `ghost` is the `sudo_gethostname()`
oracle (`none` = lookup failed).  When the name contains a dot, the code
writes NUL over the first dot so that `strdup(user_ctx.host)` copies just
the prefix, then restores the dot; hence `shost` is a fresh allocation of
the part before the first dot.  Otherwise `shost` aliases `host`.  Either
way the runas context is then made to share the very same addresses.
`none` result models `sudo_fatalx` terminating the process. -/
def get_hostname (ghost : Option CStr) (h : Heap) : Option HostState :=
  match ghost with
  | some name =>
    match h.alloc name with
    | (some hostA, h1) =>
      if name.contains '.' then
        match h1.alloc (name.takeWhile noDot) with
        | (some shostA, h2) => some ⟨h2, ⟨hostA, shostA⟩, ⟨hostA, shostA⟩⟩
        | (none, _) => none  -- sudo_fatalx: unable to allocate memory
      else
        some ⟨h1, ⟨hostA, hostA⟩, ⟨hostA, hostA⟩⟩
    | (none, h1) => gh_localhost h1
  | none => gh_localhost h

/-! ## Event-log configuration and the Defaults callback registry -/

/-- Event-log destination bits (an additive bitmask per the spec's
event-log configurator surface). -/
def EVLOG_NONE : Nat := 0

def EVLOG_SYSLOG : Nat := 1

def EVLOG_FILE : Nat := 2

/-- Event-log output formats. -/
def EVLOG_SUDO : Nat := 1

def EVLOG_JSON : Nat := 2

/-- `ACCESSPERMS` (0777), used by `cb_umask`. -/
def ACCESSPERMS : Nat := 0o777

/-- The external event-log collaborator's configuration surface: one field
per `eventlog_set_*` setter used by callbacks.c. -/
structure EvConfig where
  evType : Nat
  logpath : Option CStr
  format : Nat
  acceptpri : Int
  rejectpri : Int
  alertpri : Int
  syslog_maxlen : Nat
  file_maxlen : Nat
  time_fmt : CStr
  omit_hostname : Bool
  mailerpath : Option CStr
  mailerflags : Option CStr
  mailfrom : Option CStr
  mailto : Option CStr
  mailsub : Option CStr
deriving Repr, DecidableEq

/-- Enumerated (tuple) directive values used by the handlers in this file. -/
inductive TupleVal
  | sudo | json | dso | tty | global | other
deriving Repr, DecidableEq

/-- A snapshot of `union sudo_defs_val`: each handler reads the member
matching its directive's declared type. -/
structure DefsVal where
  flag : Bool
  str : Option CStr
  ival : Int
  tuple : TupleVal
  mode : Nat
deriving Repr, DecidableEq

/-- `def_timestamp_type` values relevant to `cb_tty_tickets`. -/
inductive TimestampType
  | global | ppid | tty | kernel
deriving Repr, DecidableEq

/-- A user database record (`struct passwd`). -/
structure Passwd where
  pw_name : CStr
  pw_uid : Nat
  pw_gid : Nat
deriving Repr, DecidableEq

/-- External collaborators consumed by the handlers: the name service, the
user database (by uid and by name), and the command-path resolver invoked
by `cb_runchroot` (returns the new `cmnd_status`). -/
structure Env where
  gai : CStr → Except Int CStr
  pwuid : Nat → Option Passwd
  pwnam : CStr → Option Passwd
  cmnd_resolve : Option CStr → Int

/-- The global state the registered handlers read and write: the event-log
configuration, the host state, and the `def_*` settings and flags touched
by handlers in callbacks.c.  `ts_owner` is the timestamp-ownership pair
held by the timestamp collaborator; `warnings` counts diagnostics sent to
the diagnostic sink. -/
structure GState where
  ev : EvConfig
  hosts : HostState
  def_syslog : Bool
  def_logfile : Option CStr
  def_timestamp_type : TimestampType
  override_umask : Bool
  ts_owner : Option (Nat × Nat)
  warnings : Nat
  user_cmnd : Option CStr
  cmnd_status : Int
  user_flags_intercept_setid : Bool
  def_intercept_allow_setid : Bool
  def_log_stdin : Int
  def_log_ttyin : Int
  def_log_stdout : Int
  def_log_stderr : Int
  def_log_ttyout : Int

/-- Uniform handler type: collaborators, directive value, operator code
(`-1` = supplied by the front end), global state. -/
abbrev Handler := Env → DefsVal → Int → GState → Bool × GState

/-- Modelled from the spec: `sudo_strtoid()` is a library routine outside
this excerpt; per §4.3 it parses the numeric-uid form, failing when the
text is not a valid number (then `errstr` is non-NULL and the handler
falls back to a name lookup). -/
def sudo_strtoid (s : CStr) : Option Nat :=
  if s ≠ [] ∧ s.all Char.isDigit then
    some (s.foldl (fun n c => n * 10 + (c.toNat - 48)) 0)
  else none

/-- `cb_timestampowner()` from callbacks.c: a value `#<n>` resolves by uid
when `<n>` parses and the uid exists; otherwise the whole value is looked
up as a user name; if both fail, warn and return false leaving the
timestamp ownership unchanged. -/
def cb_timestampowner : Handler := fun env sd_un _op g =>
  let user := sd_un.str.getD []
  let pw0 : Option Passwd :=
    match user with
    | '#' :: rest =>
      match sudo_strtoid rest with
      | some uid => env.pwuid uid
      | none => none
    | _ => none
  let pw : Option Passwd :=
    match pw0 with
    | none => env.pwnam user
    | some p => some p
  match pw with
  | none => (false, { g with warnings := g.warnings + 1 })
  | some p => (true, { g with ts_owner := some (p.pw_uid, p.pw_gid) })

/-- `cb_tty_tickets()`: convert tty_tickets -> timestamp_type. -/
def cb_tty_tickets : Handler := fun _env sd_un _op g =>
  if sd_un.flag then (true, { g with def_timestamp_type := .tty })
  else (true, { g with def_timestamp_type := .global })

/-- `cb_umask()`: override umask if explicitly set in sudoers. -/
def cb_umask : Handler := fun _env sd_un _op g =>
  (true, { g with override_umask := sd_un.mode ≠ ACCESSPERMS })

/-- `cb_runchroot()`: when the command is already resolved, recompute its
resolution status against the new chroot via the external resolver. -/
def cb_runchroot : Handler := fun env sd_un _op g =>
  if g.user_cmnd ≠ none then
    (true, { g with cmnd_status := env.cmnd_resolve sd_un.str })
  else
    (true, g)

/-- `cb_logfile()`: start from the syslog bit if syslog is enabled, OR in
the file bit when a path is set, then install the mask and the path. -/
def cb_logfile : Handler := fun _env sd_un _op g =>
  let logtype0 := if g.def_syslog then EVLOG_SYSLOG else EVLOG_NONE
  let logtype := if sd_un.str ≠ none then logtype0 ||| EVLOG_FILE else logtype0
  (true, { g with ev := { g.ev with evType := logtype, logpath := sd_un.str } })

/-- `cb_log_format()`. -/
def cb_log_format : Handler := fun _env sd_un _op g =>
  (true, { g with ev :=
    { g.ev with format := if sd_un.tuple = .sudo then EVLOG_SUDO else EVLOG_JSON } })

/-- `cb_syslog()`: start from the file bit if file logging is enabled, OR
in the syslog bit when syslog is set, then install the mask. -/
def cb_syslog : Handler := fun _env sd_un _op g =>
  let logtype0 := if g.def_logfile ≠ none then EVLOG_FILE else EVLOG_NONE
  let logtype := if sd_un.str ≠ none then logtype0 ||| EVLOG_SYSLOG else logtype0
  (true, { g with ev := { g.ev with evType := logtype } })

/-- `cb_syslog_goodpri()`. -/
def cb_syslog_goodpri : Handler := fun _env sd_un _op g =>
  (true, { g with ev := { g.ev with acceptpri := sd_un.ival } })

/-- `cb_syslog_badpri()`: sets both the reject and the alert priority to
the directive value. -/
def cb_syslog_badpri : Handler := fun _env sd_un _op g =>
  (true, { g with ev := { g.ev with rejectpri := sd_un.ival, alertpri := sd_un.ival } })

/-- `cb_syslog_maxlen()`. -/
def cb_syslog_maxlen : Handler := fun _env sd_un _op g =>
  (true, { g with ev := { g.ev with syslog_maxlen := sd_un.ival.toNat } })

/-- `cb_loglinelen()`. -/
def cb_loglinelen : Handler := fun _env sd_un _op g =>
  (true, { g with ev := { g.ev with file_maxlen := sd_un.ival.toNat } })

/-- `cb_log_year()`. -/
def cb_log_year : Handler := fun _env sd_un _op g =>
  (true, { g with ev :=
    { g.ev with time_fmt :=
        if sd_un.flag then "%h %e %T %Y".toList else "%h %e %T".toList } })

/-- `cb_log_host()`. -/
def cb_log_host : Handler := fun _env sd_un _op g =>
  (true, { g with ev := { g.ev with omit_hostname := !sd_un.flag } })

/-- `cb_mailerpath()`. -/
def cb_mailerpath : Handler := fun _env sd_un _op g =>
  (true, { g with ev := { g.ev with mailerpath := sd_un.str } })

/-- `cb_mailerflags()`. -/
def cb_mailerflags : Handler := fun _env sd_un _op g =>
  (true, { g with ev := { g.ev with mailerflags := sd_un.str } })

/-- `cb_mailfrom()`. -/
def cb_mailfrom : Handler := fun _env sd_un _op g =>
  (true, { g with ev := { g.ev with mailfrom := sd_un.str } })

/-- `cb_mailto()`. -/
def cb_mailto : Handler := fun _env sd_un _op g =>
  (true, { g with ev := { g.ev with mailto := sd_un.str } })

/-- `cb_mailsub()`. -/
def cb_mailsub : Handler := fun _env sd_un _op g =>
  (true, { g with ev := { g.ev with mailsub := sd_un.str } })

/-- `cb_intercept_type()`. -/
def cb_intercept_type : Handler := fun _env sd_un op g =>
  if op ≠ -1 then
    if sd_un.tuple = .dso then
      if !g.user_flags_intercept_setid then
        (true, { g with def_intercept_allow_setid := false })
      else (true, g)
    else (true, g)
  else (true, g)

/-- `cb_intercept_allow_setid()`: operator is -1 when set by the front end. -/
def cb_intercept_allow_setid : Handler := fun _env _sd_un op g =>
  if op ≠ -1 then
    (true, { g with user_flags_intercept_setid := true })
  else (true, g)

/-- `cb_log_input()`. -/
def cb_log_input : Handler := fun _env _sd_un op g =>
  (true, { g with def_log_stdin := op, def_log_ttyin := op })

/-- `cb_log_output()`. -/
def cb_log_output : Handler := fun _env _sd_un op g =>
  (true, { g with def_log_stdout := op, def_log_stderr := op, def_log_ttyout := op })

/-- `cb_fqdn` lifted to the registry's uniform handler type: it reads the
flag member of the union and acts on the host state. -/
def cb_fqdn_g : Handler := fun env sd_un _op g =>
  let r := cb_fqdn env.gai (some sd_un.flag) g.hosts
  (r.1, { g with hosts := r.2.1 })

/-- Modelled from the spec: `cb_group_plugin` is outside this excerpt; per
§1 the group plugin is an external collaborator, and its handler does not
touch the event-log configurator or the state modelled here. -/
def cb_group_plugin : Handler := fun _env _sd_un _op g => (true, g)

/-- Modelled from the spec: `cb_runas_default` is outside this excerpt and
does not touch the event-log configurator or the state modelled here. -/
def cb_runas_default : Handler := fun _env _sd_un _op g => (true, g)

/-- Modelled from the spec: `sudoers_locale_callback` is outside this
excerpt (locale handling is an external concern) and does not touch the
event-log configurator or the state modelled here. -/
def sudoers_locale_callback : Handler := fun _env _sd_un _op g => (true, g)

/-- Modelled from the spec: `cb_maxseq` is outside this excerpt (it
configures the I/O-log collaborator) and does not touch the event-log
configurator or the state modelled here. -/
def cb_maxseq : Handler := fun _env _sd_un _op g => (true, g)

/-- Modelled from the spec: `cb_iolog_user` is outside this excerpt (it
configures the I/O-log collaborator) and does not touch the event-log
configurator or the state modelled here. -/
def cb_iolog_user : Handler := fun _env _sd_un _op g => (true, g)

/-- Modelled from the spec: `cb_iolog_group` is outside this excerpt (it
configures the I/O-log collaborator) and does not touch the event-log
configurator or the state modelled here. -/
def cb_iolog_group : Handler := fun _env _sd_un _op g => (true, g)

/-- Modelled from the spec: `cb_iolog_mode` is outside this excerpt (it
configures the I/O-log collaborator) and does not touch the event-log
configurator or the state modelled here. -/
def cb_iolog_mode : Handler := fun _env _sd_un _op g => (true, g)

/-- Modelled from the spec: `cb_passprompt_regex` is outside this excerpt
(password prompting is out of scope per §1) and does not touch the
event-log configurator or the state modelled here. -/
def cb_passprompt_regex : Handler := fun _env _sd_un _op g => (true, g)

/-- The directive ids handled by `set_callbacks()`. -/
inductive DirId
  | I_FQDN | I_GROUP_PLUGIN | I_RUNAS_DEFAULT | I_SUDOERS_LOCALE | I_MAXSEQ
  | I_IOLOG_USER | I_IOLOG_GROUP | I_IOLOG_MODE | I_TIMESTAMPOWNER
  | I_TTY_TICKETS | I_UMASK | I_RUNCHROOT | I_SYSLOG | I_SYSLOG_GOODPRI
  | I_SYSLOG_BADPRI | I_SYSLOG_MAXLEN | I_LOGLINELEN | I_LOG_HOST | I_LOGFILE
  | I_LOG_FORMAT | I_LOG_YEAR | I_MAILERPATH | I_MAILERFLAGS | I_MAILFROM
  | I_MAILTO | I_MAILSUB | I_PASSPROMPT_REGEX | I_INTERCEPT_TYPE
  | I_INTERCEPT_ALLOW_SETID | I_LOG_INPUT | I_LOG_OUTPUT
deriving Repr, DecidableEq

/-- `set_callbacks()` from callbacks.c: the registry built once per
process, as the list of (directive id, handler) assignments it performs,
in source order. -/
def set_callbacks : List (DirId × Handler) :=
  [(.I_FQDN, cb_fqdn_g),
   (.I_GROUP_PLUGIN, cb_group_plugin),
   (.I_RUNAS_DEFAULT, cb_runas_default),
   (.I_SUDOERS_LOCALE, sudoers_locale_callback),
   (.I_MAXSEQ, cb_maxseq),
   (.I_IOLOG_USER, cb_iolog_user),
   (.I_IOLOG_GROUP, cb_iolog_group),
   (.I_IOLOG_MODE, cb_iolog_mode),
   (.I_TIMESTAMPOWNER, cb_timestampowner),
   (.I_TTY_TICKETS, cb_tty_tickets),
   (.I_UMASK, cb_umask),
   (.I_RUNCHROOT, cb_runchroot),
   (.I_SYSLOG, cb_syslog),
   (.I_SYSLOG_GOODPRI, cb_syslog_goodpri),
   (.I_SYSLOG_BADPRI, cb_syslog_badpri),
   (.I_SYSLOG_MAXLEN, cb_syslog_maxlen),
   (.I_LOGLINELEN, cb_loglinelen),
   (.I_LOG_HOST, cb_log_host),
   (.I_LOGFILE, cb_logfile),
   (.I_LOG_FORMAT, cb_log_format),
   (.I_LOG_YEAR, cb_log_year),
   (.I_MAILERPATH, cb_mailerpath),
   (.I_MAILERFLAGS, cb_mailerflags),
   (.I_MAILFROM, cb_mailfrom),
   (.I_MAILTO, cb_mailto),
   (.I_MAILSUB, cb_mailsub),
   (.I_PASSPROMPT_REGEX, cb_passprompt_regex),
   (.I_INTERCEPT_TYPE, cb_intercept_type),
   (.I_INTERCEPT_ALLOW_SETID, cb_intercept_allow_setid),
   (.I_LOG_INPUT, cb_log_input),
   (.I_LOG_OUTPUT, cb_log_output)]

/-! ## I/O-log path escapes (iolog_path_escapes.c) -/

/-- The NUL character, what reading past the cached id's six characters in
the static `sessid[7]` buffer would yield. -/
def NUL : Char := Char.ofNat 0

/-- The `snprintf("%c%c/%c%c/%c%c", ...)` rendering in `fill_seq`:
three two-character segments joined by `/`. -/
def seq_render (s : CStr) : CStr :=
  [s.getD 0 NUL, s.getD 1 NUL, '/', s.getD 2 NUL, s.getD 3 NUL, '/',
   s.getD 4 NUL, s.getD 5 NUL]

/-- The process-scoped state of `fill_seq`: the `static char sessid[7]`
cache (`[]` = first byte is NUL, i.e. not yet computed) and the number of
`iolog_nextid` invocations made so far (to observe allocator calls). -/
structure SeqSt where
  sessid : CStr
  ncalls : Nat
deriving Repr, DecidableEq

/-- `fill_seq()` from iolog_path_escapes.c: if the cached id is empty, ask
the storage-backed allocator (`nextid`, indexed by invocation number) for
a fresh id, caching it; on allocator failure return failure (size_t -1 in
the source, `none` here) with the cache still empty.  Then render the
cached id as three 2-character segments joined by `/`. -/
def fill_seq (nextid : Nat → Option CStr) (st : SeqSt) : Option CStr × SeqSt :=
  if st.sessid = [] then
    match nextid st.ncalls with
    | none => (none, ⟨st.sessid, st.ncalls + 1⟩)
    | some id => (some (seq_render id), ⟨id, st.ncalls + 1⟩)
  else
    (some (seq_render st.sessid), st)

/-- The shared context the escape generators read: the allocator and seq
cache (used only by `fill_seq`), and the fields of `user_ctx`/`runas_ctx`
plus group-database lookups used by the other generators. -/
structure EscCtx where
  nextid : Nat → Option CStr
  seq : SeqSt
  userName : CStr
  userGid : Nat
  getgrgid : Nat → Option CStr
  runasPwName : CStr
  runasPwGid : Nat
  runasGrName : Option CStr
  shost : CStr
  cmnd_base : CStr

/-- `fill_seq` as an escape generator over the shared context. -/
def fill_seq_esc (ec : EscCtx) : Option CStr × EscCtx :=
  let r := fill_seq ec.nextid ec.seq
  (r.1, { ec with seq := r.2 })

/-- `fill_user()`: the invoking user's login name. -/
def fill_user_esc (ec : EscCtx) : Option CStr × EscCtx :=
  (some ec.userName, ec)

/-- `#<gid>` fallback used when the group database has no entry. -/
def gidFallback (gid : Nat) : CStr :=
  '#' :: (toString gid).toList

/-- `fill_group()`: the invoking user's primary group name, or `#<gid>`. -/
def fill_group_esc (ec : EscCtx) : Option CStr × EscCtx :=
  match ec.getgrgid ec.userGid with
  | some gname => (some gname, ec)
  | none => (some (gidFallback ec.userGid), ec)

/-- `fill_runas_user()`: the target identity's login name. -/
def fill_runas_user_esc (ec : EscCtx) : Option CStr × EscCtx :=
  (some ec.runasPwName, ec)

/-- `fill_runas_group()`: the explicitly specified group if set, else the
target's primary group name, else `#<gid>`. -/
def fill_runas_group_esc (ec : EscCtx) : Option CStr × EscCtx :=
  match ec.runasGrName with
  | some gname => (some gname, ec)
  | none =>
    match ec.getgrgid ec.runasPwGid with
    | some gname => (some gname, ec)
    | none => (some (gidFallback ec.runasPwGid), ec)

/-- `fill_hostname()`: the invoking identity's short host name. -/
def fill_hostname_esc (ec : EscCtx) : Option CStr × EscCtx :=
  (some ec.shost, ec)

/-- `fill_command()`: the base name of the resolved command. -/
def fill_command_esc (ec : EscCtx) : Option CStr × EscCtx :=
  (some ec.cmnd_base, ec)

/-- The `path_escapes[]` table from iolog_path_escapes.c, in source order
("seq" first, by note). -/
def path_escapes : List (CStr × (EscCtx → Option CStr × EscCtx)) :=
  [("seq".toList, fill_seq_esc),
   ("user".toList, fill_user_esc),
   ("group".toList, fill_group_esc),
   ("runas_user".toList, fill_runas_user_esc),
   ("runas_group".toList, fill_runas_group_esc),
   ("hostname".toList, fill_hostname_esc),
   ("command".toList, fill_command_esc)]

/-- Opening brace character of an escape marker. -/
def lbrace : Char := Char.ofNat 123

/-- Closing brace character of an escape marker. -/
def rbrace : Char := Char.ofNat 125

/-- Linear search of the escape table by token name. -/
def lookupEscape (tok : CStr) :
    List (CStr × (EscCtx → Option CStr × EscCtx)) →
    Option (EscCtx → Option CStr × EscCtx)
  | [] => none
  | (name, gen) :: rest => if name = tok then some gen else lookupEscape tok rest

/-- Stops at the marker's closing brace. -/
def notRbrace (c : Char) : Bool := c != rbrace

/-- Modelled from the spec: the Path Template Expander
(`expand_iolog_path`, not part of this excerpt) scans the pattern; literal
text is copied verbatim; a `%` followed by an opening brace starts a
marker whose token is looked up in the escape table (unknown token or an
unterminated marker aborts the expansion), and the generator's output is
appended.  Fuel-indexed for termination; one unit per consumed character. -/
def expandAux (fuel : Nat) (table : List (CStr × (EscCtx → Option CStr × EscCtx)))
    (pat : CStr) (ec : EscCtx) (acc : CStr) : Option (CStr × EscCtx) :=
  match fuel, pat with
  | 0, _ => none
  | _, [] => some (acc, ec)
  | fuel + 1, c :: rest =>
    if c = '%' ∧ rest.head? = some lbrace then
      let body := rest.tail
      let tok := body.takeWhile notRbrace
      match body.dropWhile notRbrace with
      | [] => none  -- unterminated marker
      | _ :: rest3 =>
        match lookupEscape tok table with
        | none => none  -- TemplateError: UnknownToken
        | some gen =>
          match gen ec with
          | (none, _) => none  -- generator failure
          | (some out, ec2) => expandAux fuel table rest3 ec2 (acc ++ out)
    else
      expandAux fuel table rest ec (acc ++ [c])

/-- PATH_MAX bound on the assembled result. -/
def PATH_MAX : Nat := 4096

/-- Modelled from the spec: `expand(pattern, ctx)` per §4.4 — walk the
pattern against the fixed `path_escapes` table, failing on an unknown
token or a generator failure, and fail (`TooLong`) rather than truncate
when the result would exceed the maximum path length. -/
def expand (pat : CStr) (ec : EscCtx) : Option CStr :=
  match expandAux (pat.length + 1) path_escapes pat ec [] with
  | none => none
  | some (out, _) => if PATH_MAX ≤ out.length then none else some out

/-! ## Concrete fixtures used by witness and counterexample theorems -/

/-- A concrete event-log configuration. -/
def ev0 : EvConfig :=
  ⟨0, none, 1, 5, 4, 4, 960, 0, "%h %e %T".toList, false, none, none, none,
   none, none⟩

/-- A concrete host state: two distinct host strings, no cross-aliasing. -/
def hosts0 : HostState :=
  ⟨⟨["uhost".toList, "thost".toList], [], []⟩, ⟨0, 0⟩, ⟨1, 1⟩⟩

/-- A concrete global state with syslog enabled and a log file configured. -/
def g0 : GState :=
  ⟨ev0, hosts0, true, some "/var/log/sudo.log".toList, .global, false, none, 0,
   none, 0, false, true, 0, 0, 0, 0, 0⟩

/-- A concrete collaborator environment: resolution fails, the user
database has exactly uid 0 (named root) and no name entries. -/
def env0 : Env :=
  ⟨fun _ => .error (-2),
   fun uid => if uid = 0 then some ⟨"root".toList, 0, 0⟩ else none,
   fun _ => none,
   fun _ => 0⟩

/-- Name service where only `thost` resolves (to a dotted canonical name). -/
def gaiA : CStr → Except Int CStr :=
  fun s => if s = "thost".toList then .ok "thost.sudo.ws".toList else .error (-2)

/-- Name service resolving every name to the same dotted canonical name. -/
def gaiC : CStr → Except Int CStr :=
  fun _ => .ok "box.sudo.ws".toList

/-- Host state where both contexts already share one host string, as
`get_hostname` leaves them. -/
def hostsC : HostState :=
  ⟨⟨["box".toList], [], []⟩, ⟨0, 0⟩, ⟨0, 0⟩⟩

/-! ## Helper lemmas: heap and list computations -/

theorem getD_append_one {α : Type} (l : List α) (x : α) (d : α) :
    (l ++ [x]).getD l.length d = x := by
  rw [List.getD_append_right l [x] d l.length (le_refl _)]
  simp

theorem getD_append_two_a {α : Type} (l : List α) (x y : α) (d : α) :
    (l ++ [x, y]).getD l.length d = x := by
  rw [List.getD_append_right l [x, y] d l.length (le_refl _)]
  simp

theorem getD_append_two_b {α : Type} (l : List α) (x y : α) (d : α) :
    (l ++ [x, y]).getD (l.length + 1) d = y := by
  rw [List.getD_append_right l [x, y] d (l.length + 1) (Nat.le_succ _)]
  simp

theorem Heap.get_mk (cells : List CStr) (ok : List Bool) (freed : List Addr)
    (a : Addr) : Heap.get ⟨cells, ok, freed⟩ a = cells.getD a [] := rfl

/-- `resolve_host` on name-service failure: error returned, heap untouched. -/
theorem resolve_host_err {gai : CStr → Except Int CStr} {host : CStr} {e : Int}
    (h : Heap) (hg : gai host = .error e) :
    resolve_host gai h host = (.error e, h) := by
  unfold resolve_host
  rw [hg]

theorem contains_dot_iff {l : CStr} : l.contains '.' = true ↔ '.' ∈ l := by
  simp [List.contains, List.elem_iff]

/-- `resolve_host` success, canonical name containing a dot: the long name
and the short prefix are two fresh consecutive allocations. -/
theorem resolve_host_ok_dot {gai : CStr → Except Int CStr} {host canon : CStr}
    (cells : List CStr) (freed : List Addr) (hg : gai host = .ok canon)
    (hdot : canon.contains '.' = true) :
    resolve_host gai ⟨cells, [], freed⟩ host =
      (.ok (cells.length, cells.length + 1),
       ⟨cells ++ [canon, canon.takeWhile noDot], [], freed⟩) := by
  unfold resolve_host
  rw [hg]
  simp [Heap.alloc, hdot]
  exact contains_dot_iff.mp hdot

/-- `resolve_host` success, no dot in the canonical name: the short name
aliases the long name's single fresh allocation. -/
theorem resolve_host_ok_nodot {gai : CStr → Except Int CStr} {host canon : CStr}
    (cells : List CStr) (freed : List Addr) (hg : gai host = .ok canon)
    (hdot : canon.contains '.' = false) :
    resolve_host gai ⟨cells, [], freed⟩ host =
      (.ok (cells.length, cells.length), ⟨cells ++ [canon], [], freed⟩) := by
  unfold resolve_host
  rw [hg]
  simp [Heap.alloc, hdot]
  intro hm
  rw [contains_dot_iff.mpr hm] at hdot
  cases hdot

theorem takeWhile_noDot_of_not_mem {l : CStr} (h : '.' ∉ l) :
    l.takeWhile noDot = l := by
  refine List.takeWhile_eq_self_iff.mpr ?_
  intro c hc
  simp only [noDot, bne_iff_ne, ne_eq, decide_eq_true_eq]
  intro he
  exact h (he ▸ hc)

/-- The part of a string before its first dot, decomposed: the string is
that dot-free part, a dot, and a remainder. -/
theorem takeWhile_noDot_decomp : ∀ {l : CStr}, '.' ∈ l →
    l = l.takeWhile noDot ++ '.' :: (l.dropWhile noDot).tail := by
  intro l hd
  induction l with
  | nil => cases hd
  | cons c cs ih =>
    by_cases hc : c = '.'
    · subst hc
      simp [List.takeWhile, List.dropWhile, noDot]
    · have hd' : '.' ∈ cs := by
        rcases List.mem_cons.mp hd with h | h
        · exact absurd h.symm hc
        · exact h
      have hnd : noDot c = true := by simp [noDot, hc]
      simp only [List.takeWhile, List.dropWhile, hnd, List.cons_append,
        List.cons.injEq, true_and]
      exact ih hd'

theorem mem_takeWhile_noDot_ne {l : CStr} {c : Char}
    (h : c ∈ l.takeWhile noDot) : c ≠ '.' := by
  have := List.mem_takeWhile_imp h
  simpa [noDot, bne_iff_ne] using this

theorem Heap.free_cells (h : Heap) (a : Addr) : (h.free a).cells = h.cells := rfl

theorem Heap.free_okStream (h : Heap) (a : Addr) :
    (h.free a).okStream = h.okStream := rfl

theorem Heap.get_free (h : Heap) (a b : Addr) : (h.free a).get b = h.get b := rfl

/-- Allocation with the all-success oracle. -/
theorem Heap.alloc_nilstream (h : Heap) (hok : h.okStream = []) (s : CStr) :
    h.alloc s = (some h.cells.length, ⟨h.cells ++ [s], [], h.freed⟩) := by
  obtain ⟨cells, okS, freed⟩ := h
  cases okS with
  | nil => rfl
  | cons b rest => cases hok

/-- `resolve_host` on an all-success heap, name-service success, dotted
canonical name. -/
theorem resolve_host_ok_dot_h {gai : CStr → Except Int CStr} {host canon : CStr}
    (h : Heap) (hok : h.okStream = []) (hg : gai host = .ok canon)
    (hdot : canon.contains '.' = true) :
    resolve_host gai h host =
      (.ok (h.cells.length, h.cells.length + 1),
       ⟨h.cells ++ [canon, canon.takeWhile noDot], [], h.freed⟩) := by
  obtain ⟨cells, okS, freed⟩ := h
  cases okS with
  | nil => exact resolve_host_ok_dot cells freed hg hdot
  | cons b rest => cases hok

/-- `resolve_host` on an all-success heap, name-service success, dotless
canonical name. -/
theorem resolve_host_ok_nodot_h {gai : CStr → Except Int CStr} {host canon : CStr}
    (h : Heap) (hok : h.okStream = []) (hg : gai host = .ok canon)
    (hdot : canon.contains '.' = false) :
    resolve_host gai h host =
      (.ok (h.cells.length, h.cells.length), ⟨h.cells ++ [canon], [], h.freed⟩) := by
  obtain ⟨cells, okS, freed⟩ := h
  cases okS with
  | nil => exact resolve_host_ok_nodot cells freed hg hdot
  | cons b rest => cases hok

theorem install_user_user (st : HostState) (lh sh : Addr) :
    (fqdn_install_user st lh sh).user_ctx = ⟨lh, sh⟩ := by
  unfold fqdn_install_user
  split <;> rfl

theorem install_user_runas (st : HostState) (lh sh : Addr) :
    (fqdn_install_user st lh sh).runas_ctx = st.runas_ctx := by
  unfold fqdn_install_user
  split <;> rfl

theorem install_user_cells (st : HostState) (lh sh : Addr) :
    (fqdn_install_user st lh sh).heap.cells = st.heap.cells := by
  unfold fqdn_install_user
  split <;> rfl

theorem install_user_okStream (st : HostState) (lh sh : Addr) :
    (fqdn_install_user st lh sh).heap.okStream = st.heap.okStream := by
  unfold fqdn_install_user
  split <;> rfl

theorem install_user_get (st : HostState) (lh sh : Addr) (a : Addr) :
    (fqdn_install_user st lh sh).heap.get a = st.heap.get a := by
  unfold Heap.get
  rw [install_user_cells]

theorem install_runas_user (st : HostState) (lh sh : Addr) :
    (fqdn_install_runas st lh sh).user_ctx = st.user_ctx := by
  unfold fqdn_install_runas
  split <;> rfl

theorem install_runas_runas (st : HostState) (lh sh : Addr) :
    (fqdn_install_runas st lh sh).runas_ctx = ⟨lh, sh⟩ := by
  unfold fqdn_install_runas
  split <;> rfl

theorem install_runas_cells (st : HostState) (lh sh : Addr) :
    (fqdn_install_runas st lh sh).heap.cells = st.heap.cells := by
  unfold fqdn_install_runas
  split <;> rfl

theorem install_runas_get (st : HostState) (lh sh : Addr) (a : Addr) :
    (fqdn_install_runas st lh sh).heap.get a = st.heap.get a := by
  unfold Heap.get
  rw [install_runas_cells]

/-! Reduction lemmas tracing `cb_fqdn`'s paths. -/

theorem cb_fqdn_user_ok_dot {gai : CStr → Except Int CStr} {canon : CStr}
    (st : HostState) (hok : st.heap.okStream = [])
    (hu : gai (st.heap.get st.user_ctx.host) = .ok canon)
    (hdot : canon.contains '.' = true) :
    cb_fqdn gai (some true) st =
      ((fqdn_runas gai
          (decide (st.heap.get st.runas_ctx.host ≠ st.heap.get st.user_ctx.host))
          (fqdn_install_user
            ⟨⟨st.heap.cells ++ [canon, canon.takeWhile noDot], [], st.heap.freed⟩,
             st.user_ctx, st.runas_ctx⟩
            st.heap.cells.length (st.heap.cells.length + 1))).1,
       (fqdn_runas gai
          (decide (st.heap.get st.runas_ctx.host ≠ st.heap.get st.user_ctx.host))
          (fqdn_install_user
            ⟨⟨st.heap.cells ++ [canon, canon.takeWhile noDot], [], st.heap.freed⟩,
             st.user_ctx, st.runas_ctx⟩
            st.heap.cells.length (st.heap.cells.length + 1))).2.1,
       st.heap.get st.user_ctx.host ::
       (fqdn_runas gai
          (decide (st.heap.get st.runas_ctx.host ≠ st.heap.get st.user_ctx.host))
          (fqdn_install_user
            ⟨⟨st.heap.cells ++ [canon, canon.takeWhile noDot], [], st.heap.freed⟩,
             st.user_ctx, st.runas_ctx⟩
            st.heap.cells.length (st.heap.cells.length + 1))).2.2) := by
  simp [cb_fqdn, resolve_host_ok_dot_h st.heap hok hu hdot]

theorem cb_fqdn_user_ok_nodot {gai : CStr → Except Int CStr} {canon : CStr}
    (st : HostState) (hok : st.heap.okStream = [])
    (hu : gai (st.heap.get st.user_ctx.host) = .ok canon)
    (hdot : canon.contains '.' = false) :
    cb_fqdn gai (some true) st =
      ((fqdn_runas gai
          (decide (st.heap.get st.runas_ctx.host ≠ st.heap.get st.user_ctx.host))
          (fqdn_install_user
            ⟨⟨st.heap.cells ++ [canon], [], st.heap.freed⟩,
             st.user_ctx, st.runas_ctx⟩
            st.heap.cells.length st.heap.cells.length)).1,
       (fqdn_runas gai
          (decide (st.heap.get st.runas_ctx.host ≠ st.heap.get st.user_ctx.host))
          (fqdn_install_user
            ⟨⟨st.heap.cells ++ [canon], [], st.heap.freed⟩,
             st.user_ctx, st.runas_ctx⟩
            st.heap.cells.length st.heap.cells.length)).2.1,
       st.heap.get st.user_ctx.host ::
       (fqdn_runas gai
          (decide (st.heap.get st.runas_ctx.host ≠ st.heap.get st.user_ctx.host))
          (fqdn_install_user
            ⟨⟨st.heap.cells ++ [canon], [], st.heap.freed⟩,
             st.user_ctx, st.runas_ctx⟩
            st.heap.cells.length st.heap.cells.length)).2.2) := by
  simp [cb_fqdn, resolve_host_ok_nodot_h st.heap hok hu hdot]

theorem cb_fqdn_retry_ok_dot {gai : CStr → Except Int CStr} {canon : CStr} {e : Int}
    (st : HostState) (hok : st.heap.okStream = [])
    (hu : gai (st.heap.get st.user_ctx.host) = .error e)
    (hr : gai (st.heap.get st.runas_ctx.host) = .ok canon)
    (hdot : canon.contains '.' = true) :
    cb_fqdn gai (some true) st =
      ((fqdn_runas gai
          (decide (st.heap.get st.runas_ctx.host ≠ st.heap.get st.user_ctx.host))
          (fqdn_install_user
            ⟨⟨st.heap.cells ++ [canon, canon.takeWhile noDot], [], st.heap.freed⟩,
             st.user_ctx, st.runas_ctx⟩
            st.heap.cells.length (st.heap.cells.length + 1))).1,
       (fqdn_runas gai
          (decide (st.heap.get st.runas_ctx.host ≠ st.heap.get st.user_ctx.host))
          (fqdn_install_user
            ⟨⟨st.heap.cells ++ [canon, canon.takeWhile noDot], [], st.heap.freed⟩,
             st.user_ctx, st.runas_ctx⟩
            st.heap.cells.length (st.heap.cells.length + 1))).2.1,
       st.heap.get st.user_ctx.host :: st.heap.get st.runas_ctx.host ::
       (fqdn_runas gai
          (decide (st.heap.get st.runas_ctx.host ≠ st.heap.get st.user_ctx.host))
          (fqdn_install_user
            ⟨⟨st.heap.cells ++ [canon, canon.takeWhile noDot], [], st.heap.freed⟩,
             st.user_ctx, st.runas_ctx⟩
            st.heap.cells.length (st.heap.cells.length + 1))).2.2) := by
  simp [cb_fqdn, resolve_host_err st.heap hu,
    resolve_host_ok_dot_h st.heap hok hr hdot]

theorem cb_fqdn_retry_ok_nodot {gai : CStr → Except Int CStr} {canon : CStr}
    {e : Int} (st : HostState) (hok : st.heap.okStream = [])
    (hu : gai (st.heap.get st.user_ctx.host) = .error e)
    (hr : gai (st.heap.get st.runas_ctx.host) = .ok canon)
    (hdot : canon.contains '.' = false) :
    cb_fqdn gai (some true) st =
      ((fqdn_runas gai
          (decide (st.heap.get st.runas_ctx.host ≠ st.heap.get st.user_ctx.host))
          (fqdn_install_user
            ⟨⟨st.heap.cells ++ [canon], [], st.heap.freed⟩,
             st.user_ctx, st.runas_ctx⟩
            st.heap.cells.length st.heap.cells.length)).1,
       (fqdn_runas gai
          (decide (st.heap.get st.runas_ctx.host ≠ st.heap.get st.user_ctx.host))
          (fqdn_install_user
            ⟨⟨st.heap.cells ++ [canon], [], st.heap.freed⟩,
             st.user_ctx, st.runas_ctx⟩
            st.heap.cells.length st.heap.cells.length)).2.1,
       st.heap.get st.user_ctx.host :: st.heap.get st.runas_ctx.host ::
       (fqdn_runas gai
          (decide (st.heap.get st.runas_ctx.host ≠ st.heap.get st.user_ctx.host))
          (fqdn_install_user
            ⟨⟨st.heap.cells ++ [canon], [], st.heap.freed⟩,
             st.user_ctx, st.runas_ctx⟩
            st.heap.cells.length st.heap.cells.length)).2.2) := by
  simp [cb_fqdn, resolve_host_err st.heap hu,
    resolve_host_ok_nodot_h st.heap hok hr hdot]

theorem fqdn_runas_remote_err {gai : CStr → Except Int CStr} {e : Int}
    (st : HostState)
    (hr : gai (st.heap.get st.runas_ctx.host) = .error e) :
    fqdn_runas gai true st = (false, st, [st.heap.get st.runas_ctx.host]) := by
  simp [fqdn_runas, resolve_host_err st.heap hr]

theorem fqdn_runas_remote_dot {gai : CStr → Except Int CStr} {canon : CStr}
    (st : HostState) (hok : st.heap.okStream = [])
    (hr : gai (st.heap.get st.runas_ctx.host) = .ok canon)
    (hdot : canon.contains '.' = true) :
    fqdn_runas gai true st =
      (true,
       fqdn_install_runas
         ⟨⟨st.heap.cells ++ [canon, canon.takeWhile noDot], [], st.heap.freed⟩,
          st.user_ctx, st.runas_ctx⟩
         st.heap.cells.length (st.heap.cells.length + 1),
       [st.heap.get st.runas_ctx.host]) := by
  simp [fqdn_runas, resolve_host_ok_dot_h st.heap hok hr hdot]

theorem fqdn_runas_remote_nodot {gai : CStr → Except Int CStr} {canon : CStr}
    (st : HostState) (hok : st.heap.okStream = [])
    (hr : gai (st.heap.get st.runas_ctx.host) = .ok canon)
    (hdot : canon.contains '.' = false) :
    fqdn_runas gai true st =
      (true,
       fqdn_install_runas
         ⟨⟨st.heap.cells ++ [canon], [], st.heap.freed⟩,
          st.user_ctx, st.runas_ctx⟩
         st.heap.cells.length st.heap.cells.length,
       [st.heap.get st.runas_ctx.host]) := by
  simp [fqdn_runas, resolve_host_ok_nodot_h st.heap hok hr hdot]

theorem fqdn_runas_local_alias {gai : CStr → Except Int CStr}
    (st : HostState) (hok : st.heap.okStream = [])
    (hal : st.user_ctx.shost = st.user_ctx.host) :
    fqdn_runas gai false st =
      (true,
       fqdn_install_runas
         ⟨⟨st.heap.cells ++ [st.heap.get st.user_ctx.host], [], st.heap.freed⟩,
          st.user_ctx, st.runas_ctx⟩
         st.heap.cells.length st.heap.cells.length,
       []) := by
  simp [fqdn_runas, Heap.alloc_nilstream st.heap hok, hal]

theorem fqdn_runas_local_noalias {gai : CStr → Except Int CStr}
    (st : HostState) (hok : st.heap.okStream = [])
    (hal : st.user_ctx.shost ≠ st.user_ctx.host)
    (hsh : st.user_ctx.shost < st.heap.cells.length) :
    fqdn_runas gai false st =
      (true,
       fqdn_install_runas
         ⟨⟨st.heap.cells ++
             [st.heap.get st.user_ctx.host, st.heap.get st.user_ctx.shost],
           [], st.heap.freed⟩,
          st.user_ctx, st.runas_ctx⟩
         st.heap.cells.length (st.heap.cells.length + 1),
       []) := by
  have h1 := Heap.alloc_nilstream st.heap hok (st.heap.get st.user_ctx.host)
  have h2 : Heap.get
      ⟨st.heap.cells ++ [st.heap.get st.user_ctx.host], [], st.heap.freed⟩
      st.user_ctx.shost = st.heap.get st.user_ctx.shost := by
    rw [Heap.get_mk, List.getD_append _ _ _ _ hsh]
    rfl
  simp [fqdn_runas, h1, hal, h2,
    Heap.alloc_nilstream ⟨st.heap.cells ++ [st.heap.get st.user_ctx.host], [],
      st.heap.freed⟩ rfl]

theorem Heap.get_append_lt (C extra : List CStr) (ok : List Bool)
    (f : List Addr) {a : Addr} (ha : a < C.length) :
    Heap.get ⟨C ++ extra, ok, f⟩ a = C.getD a [] := by
  unfold Heap.get
  exact List.getD_append _ _ _ _ ha

theorem Heap.get_mk_one (C : List CStr) (x : CStr) (ok : List Bool)
    (f : List Addr) : Heap.get ⟨C ++ [x], ok, f⟩ C.length = x :=
  getD_append_one C x []

theorem Heap.get_mk_two_a (C : List CStr) (x y : CStr) (ok : List Bool)
    (f : List Addr) : Heap.get ⟨C ++ [x, y], ok, f⟩ C.length = x :=
  getD_append_two_a C x y []

theorem Heap.get_mk_two_b (C : List CStr) (x y : CStr) (ok : List Bool)
    (f : List Addr) : Heap.get ⟨C ++ [x, y], ok, f⟩ (C.length + 1) = y :=
  getD_append_two_b C x y []

/-- `get_hostname` on lookup success with a dotted name. -/
theorem get_hostname_dot (name : CStr) (cells : List CStr) (freed : List Addr)
    (hdot : name.contains '.' = true) :
    get_hostname (some name) ⟨cells, [], freed⟩ =
      some ⟨⟨cells ++ [name, name.takeWhile noDot], [], freed⟩,
            ⟨cells.length, cells.length + 1⟩,
            ⟨cells.length, cells.length + 1⟩⟩ := by
  simp [get_hostname, Heap.alloc, hdot]
  exact contains_dot_iff.mp hdot

/-- `get_hostname` on lookup success with a dotless name. -/
theorem get_hostname_nodot (name : CStr) (cells : List CStr) (freed : List Addr)
    (hdot : name.contains '.' = false) :
    get_hostname (some name) ⟨cells, [], freed⟩ =
      some ⟨⟨cells ++ [name], [], freed⟩,
            ⟨cells.length, cells.length⟩, ⟨cells.length, cells.length⟩⟩ := by
  simp [get_hostname, Heap.alloc, hdot]
  intro hm
  rw [contains_dot_iff.mpr hm] at hdot
  cases hdot

/-! ## Claim theorems -/

/-- C4: for `cb_fqdn` with the fqdn feature enabled, if resolving the
invoking host fails and the one-time retry using the target host name also
fails, the call returns false and the whole state — both Identity
Contexts' host and shost fields and the heap — is exactly as before the
call (no partial update to either context). -/
theorem cb_fqdn_both_fail {gai : CStr → Except Int CStr} (st : HostState)
    (e1 e2 : Int)
    (hu : gai (st.heap.get st.user_ctx.host) = .error e1)
    (hr : gai (st.heap.get st.runas_ctx.host) = .error e2) :
    cb_fqdn gai (some true) st =
      (false, st,
       [st.heap.get st.user_ctx.host, st.heap.get st.runas_ctx.host]) := by
  simp [cb_fqdn, resolve_host_err st.heap hu, resolve_host_err st.heap hr]

/-- Witness for C4 at a concrete state and a name service that fails on
every name. -/
theorem cb_fqdn_both_fail_witness :
    cb_fqdn (fun _ => .error (-2)) (some true) hosts0 =
      (false, hosts0, ["uhost".toList, "thost".toList]) :=
  cb_fqdn_both_fail hosts0 (-2) (-2) rfl rfl

/-- C6: the event-log destination mask is additive: applying `cb_logfile`
with a non-null path while syslog is enabled, or `cb_syslog` with a
non-null value while file logging is enabled, yields a mask containing
both `EVLOG_FILE` and `EVLOG_SYSLOG`; and in either order of applying the
two handlers, neither clears the bit the other contributed. -/
theorem evlog_mask_additive (env env' : Env) (v v' : DefsVal) (op op' : Int)
    (g : GState) :
    (g.def_syslog = true → v.str ≠ none →
      (cb_logfile env v op g).2.ev.evType &&& EVLOG_FILE ≠ 0 ∧
      (cb_logfile env v op g).2.ev.evType &&& EVLOG_SYSLOG ≠ 0) ∧
    (g.def_logfile ≠ none → v'.str ≠ none →
      (cb_syslog env' v' op' g).2.ev.evType &&& EVLOG_FILE ≠ 0 ∧
      (cb_syslog env' v' op' g).2.ev.evType &&& EVLOG_SYSLOG ≠ 0) ∧
    (g.def_syslog = true → g.def_logfile ≠ none → v.str ≠ none → v'.str ≠ none →
      ((cb_syslog env' v' op' (cb_logfile env v op g).2).2.ev.evType
          &&& EVLOG_FILE ≠ 0 ∧
       (cb_syslog env' v' op' (cb_logfile env v op g).2).2.ev.evType
          &&& EVLOG_SYSLOG ≠ 0) ∧
      ((cb_logfile env v op (cb_syslog env' v' op' g).2).2.ev.evType
          &&& EVLOG_FILE ≠ 0 ∧
       (cb_logfile env v op (cb_syslog env' v' op' g).2).2.ev.evType
          &&& EVLOG_SYSLOG ≠ 0)) := by
  refine ⟨?_, ?_, ?_⟩
  · intro hs hv
    simp [cb_logfile, hs, hv, EVLOG_SYSLOG, EVLOG_FILE, EVLOG_NONE]
  · intro hl hv'
    simp [cb_syslog, hl, hv', EVLOG_SYSLOG, EVLOG_FILE, EVLOG_NONE]
  · intro hs hl hv hv'
    refine ⟨?_, ?_⟩ <;>
      simp [cb_logfile, cb_syslog, hs, hl, hv, hv',
        EVLOG_SYSLOG, EVLOG_FILE, EVLOG_NONE]

/-- Witness for C6 at a concrete state with syslog enabled and a log file
configured. -/
theorem evlog_mask_additive_witness :
    ((cb_logfile env0 ⟨false, some "/var/log/sudo.log".toList, 0, .other, 0⟩ 0
        g0).2.ev.evType &&& EVLOG_FILE ≠ 0 ∧
     (cb_logfile env0 ⟨false, some "/var/log/sudo.log".toList, 0, .other, 0⟩ 0
        g0).2.ev.evType &&& EVLOG_SYSLOG ≠ 0) ∧
    ((cb_syslog env0 ⟨false, some "auth".toList, 0, .other, 0⟩ 0
        (cb_logfile env0 ⟨false, some "/var/log/sudo.log".toList, 0, .other, 0⟩ 0
          g0).2).2.ev.evType &&& EVLOG_FILE ≠ 0 ∧
     (cb_syslog env0 ⟨false, some "auth".toList, 0, .other, 0⟩ 0
        (cb_logfile env0 ⟨false, some "/var/log/sudo.log".toList, 0, .other, 0⟩ 0
          g0).2).2.ev.evType &&& EVLOG_SYSLOG ≠ 0) := by
  have h := evlog_mask_additive env0 env0
    ⟨false, some "/var/log/sudo.log".toList, 0, .other, 0⟩
    ⟨false, some "auth".toList, 0, .other, 0⟩ 0 0 g0
  exact ⟨h.1 rfl (by decide), (h.2.2 rfl (by decide) (by decide) (by decide)).1⟩

/-- C8: `fill_seq` computes the sequence id at most once per process: a
first successful call invokes the allocator once and caches the id; every
subsequent call returns the identically rendered id without invoking the
allocator again; a failed allocation leaves the cache empty. -/
theorem fill_seq_cached (nextid : Nat → Option CStr) (id : CStr)
    (hsucc : nextid 0 = some id) (hlen : id.length = 6) :
    fill_seq nextid ⟨[], 0⟩ = (some (seq_render id), ⟨id, 1⟩) ∧
    (∀ n, fill_seq nextid ⟨id, n⟩ = (some (seq_render id), ⟨id, n⟩)) ∧
    (∀ nextid' : Nat → Option CStr, nextid' 0 = none →
      fill_seq nextid' ⟨[], 0⟩ = (none, ⟨[], 1⟩)) := by
  have hne : id ≠ [] := by
    intro h
    rw [h] at hlen
    cases hlen
  refine ⟨?_, ?_, ?_⟩
  · simp [fill_seq, hsucc]
  · intro n
    simp [fill_seq, hne]
  · intro nextid' hfail
    simp [fill_seq, hfail]

/-- Witness for C8 with an allocator handing out the id `000001`. -/
theorem fill_seq_cached_witness :
    fill_seq (fun _ => some "000001".toList) ⟨[], 0⟩ =
      (some (seq_render "000001".toList), ⟨"000001".toList, 1⟩) ∧
    fill_seq (fun _ => some "000001".toList) ⟨"000001".toList, 1⟩ =
      (some (seq_render "000001".toList), ⟨"000001".toList, 1⟩) :=
  ⟨(fill_seq_cached (fun _ => some "000001".toList) "000001".toList rfl rfl).1,
   (fill_seq_cached (fun _ => some "000001".toList) "000001".toList rfl rfl).2.1 1⟩

/-- C9: for any cached six-character session id, `fill_seq` renders it as
three two-character segments joined by `/`, and `fill_user` renders the
invoking user's login name; expanding the pattern `%\x7bseq\x7d/%\x7buser\x7d`
with cached sequence id `A1B2C3` and invoking user `alice` yields
`A1/B2/C3/alice`. -/
theorem seq_user_expansion :
    (∀ (a b c d e f : Char) (nextid : Nat → Option CStr) (n : Nat),
      fill_seq nextid ⟨[a, b, c, d, e, f], n⟩ =
        (some [a, b, '/', c, d, '/', e, f], ⟨[a, b, c, d, e, f], n⟩)) ∧
    (∀ nextid : Nat → Option CStr,
      expand "%\x7bseq\x7d/%\x7buser\x7d".toList
        ⟨nextid, ⟨"A1B2C3".toList, 1⟩, "alice".toList, 0, fun _ => none,
         [], 0, none, [], []⟩ = some "A1/B2/C3/alice".toList) := by
  constructor
  · intro a b c d e f nextid n
    rfl
  · intro nextid
    rfl

/-- C7: `cb_timestampowner` resolves `#<n>` by uid without any name lookup
when `<n>` parses and the uid exists (independently of the name database);
when the parse fails, or the uid has no record, the whole value is looked
up as a user name; and when that also fails the handler warns and returns
false without changing the timestamp ownership. -/
theorem cb_timestampowner_resolution (env : Env) (g : GState) (op : Int) :
    (∀ (v : DefsVal) rest uid p, v.str = some ('#' :: rest) →
       sudo_strtoid rest = some uid → env.pwuid uid = some p →
       cb_timestampowner env v op g =
         (true, { g with ts_owner := some (p.pw_uid, p.pw_gid) })) ∧
    (∀ (v : DefsVal) rest q, v.str = some ('#' :: rest) →
       sudo_strtoid rest = none → env.pwnam ('#' :: rest) = some q →
       cb_timestampowner env v op g =
         (true, { g with ts_owner := some (q.pw_uid, q.pw_gid) })) ∧
    (∀ (v : DefsVal) rest uid q, v.str = some ('#' :: rest) →
       sudo_strtoid rest = some uid → env.pwuid uid = none →
       env.pwnam ('#' :: rest) = some q →
       cb_timestampowner env v op g =
         (true, { g with ts_owner := some (q.pw_uid, q.pw_gid) })) ∧
    (∀ (v : DefsVal) rest, v.str = some ('#' :: rest) →
       sudo_strtoid rest = none → env.pwnam ('#' :: rest) = none →
       cb_timestampowner env v op g =
         (false, { g with warnings := g.warnings + 1 })) ∧
    (∀ (v : DefsVal) rest uid, v.str = some ('#' :: rest) →
       sudo_strtoid rest = some uid → env.pwuid uid = none →
       env.pwnam ('#' :: rest) = none →
       cb_timestampowner env v op g =
         (false, { g with warnings := g.warnings + 1 })) := by
  refine ⟨?_, ?_, ?_, ?_, ?_⟩
  · intro v rest uid p hstr hid hpw
    simp [cb_timestampowner, hstr, hid, hpw]
  · intro v rest q hstr hid hnam
    simp [cb_timestampowner, hstr, hid, hnam]
  · intro v rest uid q hstr hid hpw hnam
    simp [cb_timestampowner, hstr, hid, hpw, hnam]
  · intro v rest hstr hid hnam
    simp [cb_timestampowner, hstr, hid, hnam]
  · intro v rest uid hstr hid hpw hnam
    simp [cb_timestampowner, hstr, hid, hpw, hnam]

/-- Witness for C7: `#0` resolves to uid 0 although the name database has
no entry at all, and `#x` (invalid number, unknown name) fails leaving the
ownership unchanged. -/
theorem cb_timestampowner_resolution_witness :
    cb_timestampowner env0 ⟨false, some "#0".toList, 0, .other, 0⟩ 0 g0 =
      (true, { g0 with ts_owner := some (0, 0) }) ∧
    cb_timestampowner env0 ⟨false, some "#x".toList, 0, .other, 0⟩ 0 g0 =
      (false, { g0 with warnings := g0.warnings + 1 }) := by
  have h := cb_timestampowner_resolution env0 g0 0
  exact ⟨h.1 _ "0".toList 0 ⟨"root".toList, 0, 0⟩ rfl rfl rfl,
         h.2.2.2.1 _ "x".toList rfl rfl rfl⟩

/-- C10: `cb_syslog_badpri` sets both the syslog reject priority and the
syslog alert priority to the directive value and returns success; no
other handler registered by `set_callbacks` changes the alert priority,
so through this registry the two thresholds cannot be made to differ. -/
theorem syslog_badpri_sets_alert :
    (∀ env v op g,
      (cb_syslog_badpri env v op g).1 = true ∧
      (cb_syslog_badpri env v op g).2.ev.rejectpri = v.ival ∧
      (cb_syslog_badpri env v op g).2.ev.alertpri = v.ival) ∧
    (∀ p ∈ set_callbacks, p.1 ≠ DirId.I_SYSLOG_BADPRI →
      ∀ env v op g, (p.2 env v op g).2.ev.alertpri = g.ev.alertpri) := by
  constructor
  · intro env v op g
    exact ⟨rfl, rfl, rfl⟩
  · intro p hp hne env v op g
    fin_cases hp <;>
      first
        | exact absurd rfl hne
        | rfl
        | (simp only [cb_timestampowner, cb_tty_tickets, cb_runchroot,
             cb_intercept_type, cb_intercept_allow_setid]
           repeat' split
           all_goals rfl)

/-- Witness for C10: the reject and alert priorities coincide after
`cb_syslog_badpri`, and a registered non-badpri handler (`cb_logfile`)
leaves the alert priority unchanged. -/
theorem syslog_badpri_sets_alert_witness :
    ((cb_syslog_badpri env0 ⟨false, none, 3, .other, 0⟩ 0 g0).2.ev.rejectpri =
       (cb_syslog_badpri env0 ⟨false, none, 3, .other, 0⟩ 0 g0).2.ev.alertpri) ∧
    (cb_logfile env0 ⟨false, none, 3, .other, 0⟩ 0 g0).2.ev.alertpri =
      g0.ev.alertpri := by
  have h := syslog_badpri_sets_alert
  constructor
  · rw [(h.1 env0 ⟨false, none, 3, .other, 0⟩ 0 g0).2.1,
       (h.1 env0 ⟨false, none, 3, .other, 0⟩ 0 g0).2.2]
  · exact h.2 (DirId.I_LOGFILE, cb_logfile) (by simp [set_callbacks])
      (by decide) env0 ⟨false, none, 3, .other, 0⟩ 0 g0

/-- C2: for both `resolve_host` and `get_hostname`, when the canonical
long name contains a `.` the derived short name is an independent
allocation holding exactly the part of the long name strictly before the
first `.` (a dot-free prefix followed by a dot); when the long name has no
`.`, the short name is the very same allocation as the long name. -/
theorem short_host_derivation (gai : CStr → Except Int CStr)
    (host canon name : CStr) (cells cells2 : List CStr)
    (freed freed2 : List Addr) (hg : gai host = .ok canon) :
    (∃ lh sh h',
       resolve_host gai ⟨cells, [], freed⟩ host = (.ok (lh, sh), h') ∧
       h'.get lh = canon ∧
       ('.' ∈ canon → sh ≠ lh ∧
          canon = h'.get sh ++ '.' :: (canon.dropWhile noDot).tail ∧
          ∀ c ∈ h'.get sh, c ≠ '.') ∧
       ('.' ∉ canon → sh = lh)) ∧
    (∃ st, get_hostname (some name) ⟨cells2, [], freed2⟩ = some st ∧
       st.heap.get st.user_ctx.host = name ∧
       ('.' ∈ name → st.user_ctx.shost ≠ st.user_ctx.host ∧
          name = st.heap.get st.user_ctx.shost ++ '.' ::
            (name.dropWhile noDot).tail ∧
          ∀ c ∈ st.heap.get st.user_ctx.shost, c ≠ '.') ∧
       ('.' ∉ name → st.user_ctx.shost = st.user_ctx.host)) := by
  constructor
  · cases hdot : canon.contains '.' with
    | true =>
      refine ⟨cells.length, cells.length + 1, _,
        resolve_host_ok_dot cells freed hg hdot, ?_, ?_, ?_⟩
      · exact Heap.get_mk_two_a cells canon (canon.takeWhile noDot) [] freed
      · intro _
        refine ⟨Nat.succ_ne_self _, ?_, ?_⟩
        · rw [Heap.get_mk_two_b cells canon (canon.takeWhile noDot) [] freed]
          exact takeWhile_noDot_decomp (contains_dot_iff.mp hdot)
        · rw [Heap.get_mk_two_b cells canon (canon.takeWhile noDot) [] freed]
          exact fun c hc => mem_takeWhile_noDot_ne hc
      · intro hnot
        exact absurd (contains_dot_iff.mp hdot) hnot
    | false =>
      refine ⟨cells.length, cells.length, _,
        resolve_host_ok_nodot cells freed hg hdot, ?_, ?_, fun _ => rfl⟩
      · exact Heap.get_mk_one cells canon [] freed
      · intro hmem
        rw [contains_dot_iff.mpr hmem] at hdot
        cases hdot
  · cases hdot : name.contains '.' with
    | true =>
      refine ⟨_, get_hostname_dot name cells2 freed2 hdot, ?_, ?_, ?_⟩
      · exact Heap.get_mk_two_a cells2 name (name.takeWhile noDot) [] freed2
      · intro _
        refine ⟨Nat.succ_ne_self _, ?_, ?_⟩
        · rw [Heap.get_mk_two_b cells2 name (name.takeWhile noDot) [] freed2]
          exact takeWhile_noDot_decomp (contains_dot_iff.mp hdot)
        · rw [Heap.get_mk_two_b cells2 name (name.takeWhile noDot) [] freed2]
          exact fun c hc => mem_takeWhile_noDot_ne hc
      · intro hnot
        exact absurd (contains_dot_iff.mp hdot) hnot
    | false =>
      refine ⟨_, get_hostname_nodot name cells2 freed2 hdot, ?_, ?_,
        fun _ => rfl⟩
      · exact Heap.get_mk_one cells2 name [] freed2
      · intro hmem
        rw [contains_dot_iff.mpr hmem] at hdot
        cases hdot

/-- Witness for C2: resolving `thost` to the dotted canonical name
`thost.sudo.ws` yields a short name in a distinct allocation, and
`get_hostname` on the dotless name `box` aliases short and long. -/
theorem short_host_derivation_witness :
    (∃ lh sh h',
       resolve_host gaiA ⟨[], [], []⟩ "thost".toList = (.ok (lh, sh), h') ∧
       sh ≠ lh) ∧
    (∃ st, get_hostname (some "box".toList) ⟨[], [], []⟩ = some st ∧
       st.user_ctx.shost = st.user_ctx.host) := by
  have h := short_host_derivation gaiA "thost".toList "thost.sudo.ws".toList
    "box".toList [] [] [] [] rfl
  obtain ⟨⟨lh, sh, h', heq, _, hdotp, _⟩, ⟨st, heq2, _, _, hnod⟩⟩ := h
  exact ⟨⟨lh, sh, h', heq, (hdotp (by decide)).1⟩,
         ⟨st, heq2, hnod (by decide)⟩⟩

/-- C1: with the fqdn feature enabled, if resolving the invoking host
fails but the single retry that resolves the target (runas) host name
instead succeeds, the invoking context's host and shost end up holding the
long/short pair resolved from the target host name, and the call returns
success. -/
theorem cb_fqdn_retry_target {gai : CStr → Except Int CStr}
    (st : HostState) (e : Int) (canon : CStr)
    (hok : st.heap.okStream = []) (hwf : st.Wf)
    (hu : gai (st.heap.get st.user_ctx.host) = .error e)
    (hr : gai (st.heap.get st.runas_ctx.host) = .ok canon) :
    ∃ st' calls, cb_fqdn gai (some true) st = (true, st', calls) ∧
      st'.heap.get st'.user_ctx.host = canon ∧
      st'.heap.get st'.user_ctx.shost = canon.takeWhile noDot := by
  obtain ⟨hwu, hws, hwr, hwrs⟩ := hwf
  have hne : st.heap.get st.runas_ctx.host ≠ st.heap.get st.user_ctx.host := by
    intro h
    rw [h, hu] at hr
    cases hr
  cases hdot : canon.contains '.' with
  | true =>
    rw [cb_fqdn_retry_ok_dot st hok hu hr hdot, decide_eq_true hne]
    set ST1 := fqdn_install_user
      ⟨⟨st.heap.cells ++ [canon, canon.takeWhile noDot], [], st.heap.freed⟩,
       st.user_ctx, st.runas_ctx⟩
      st.heap.cells.length (st.heap.cells.length + 1) with hST1
    have hok1 : ST1.heap.okStream = [] := by
      rw [hST1, install_user_okStream]
    have hget1 : ST1.heap.get ST1.runas_ctx.host =
        st.heap.get st.runas_ctx.host := by
      rw [hST1, install_user_runas, install_user_get,
        Heap.get_append_lt _ _ _ _ hwr]
      rfl
    have hr1 : gai (ST1.heap.get ST1.runas_ctx.host) = .ok canon := by
      rw [hget1]
      exact hr
    rw [fqdn_runas_remote_dot ST1 hok1 hr1 hdot]
    have hlt : st.heap.cells.length <
        (st.heap.cells ++ [canon, canon.takeWhile noDot]).length := by
      simp only [List.length_append, List.length_cons, List.length_nil]
      omega
    have hlt2 : st.heap.cells.length + 1 <
        (st.heap.cells ++ [canon, canon.takeWhile noDot]).length := by
      rw [List.length_append]
      simp
    refine ⟨_, _, rfl, ?_, ?_⟩
    · rw [install_runas_user, install_runas_get, hST1, install_user_user,
        install_user_cells]
      rw [Heap.get_append_lt _ _ _ _ hlt]
      exact getD_append_two_a _ _ _ _
    · rw [install_runas_user, install_runas_get, hST1, install_user_user,
        install_user_cells]
      rw [Heap.get_append_lt _ _ _ _ hlt2]
      exact getD_append_two_b _ _ _ _
  | false =>
    have hnot : '.' ∉ canon := by
      intro hm
      rw [contains_dot_iff.mpr hm] at hdot
      cases hdot
    rw [cb_fqdn_retry_ok_nodot st hok hu hr hdot, decide_eq_true hne]
    set ST1 := fqdn_install_user
      ⟨⟨st.heap.cells ++ [canon], [], st.heap.freed⟩,
       st.user_ctx, st.runas_ctx⟩
      st.heap.cells.length st.heap.cells.length with hST1
    have hok1 : ST1.heap.okStream = [] := by
      rw [hST1, install_user_okStream]
    have hget1 : ST1.heap.get ST1.runas_ctx.host =
        st.heap.get st.runas_ctx.host := by
      rw [hST1, install_user_runas, install_user_get,
        Heap.get_append_lt _ _ _ _ hwr]
      rfl
    have hr1 : gai (ST1.heap.get ST1.runas_ctx.host) = .ok canon := by
      rw [hget1]
      exact hr
    rw [fqdn_runas_remote_nodot ST1 hok1 hr1 hdot]
    have hlt : st.heap.cells.length <
        (st.heap.cells ++ [canon]).length := by
      simp only [List.length_append, List.length_cons, List.length_nil]
      omega
    refine ⟨_, _, rfl, ?_, ?_⟩
    · rw [install_runas_user, install_runas_get, hST1, install_user_user,
        install_user_cells]
      rw [Heap.get_append_lt _ _ _ _ hlt]
      exact getD_append_one _ _ _
    · rw [takeWhile_noDot_of_not_mem hnot]
      rw [install_runas_user, install_runas_get, hST1, install_user_user,
        install_user_cells]
      rw [Heap.get_append_lt _ _ _ _ hlt]
      exact getD_append_one _ _ _

/-- Witness for C1: `uhost` fails to resolve, the retry on `thost`
succeeds; the invoking context receives the pair resolved from `thost`. -/
theorem cb_fqdn_retry_target_witness :
    ∃ st' calls, cb_fqdn gaiA (some true) hosts0 = (true, st', calls) ∧
      st'.heap.get st'.user_ctx.host = "thost.sudo.ws".toList ∧
      st'.heap.get st'.user_ctx.shost = "thost".toList := by
  obtain ⟨st', calls, heq, h1, h2⟩ :=
    @cb_fqdn_retry_target gaiA hosts0 (-2) "thost.sudo.ws".toList rfl
      (by decide) rfl rfl
  exact ⟨st', calls, heq, h1, by rw [h2]; decide⟩

/-- C3: when the invoking and target host names are textually equal and
resolution of the invoking host succeeds, `cb_fqdn` makes exactly one
name-service resolution call, and the target context receives an
independently allocated copy of the invoking context's resolved pair,
with the alias relationship preserved (target shost aliases target host
exactly when invoking shost aliases invoking host). -/
theorem cb_fqdn_local_copy {gai : CStr → Except Int CStr}
    (st : HostState) (canon : CStr)
    (hok : st.heap.okStream = []) (hwf : st.Wf)
    (hsame : st.heap.get st.runas_ctx.host = st.heap.get st.user_ctx.host)
    (hu : gai (st.heap.get st.user_ctx.host) = .ok canon) :
    ∃ st' calls, cb_fqdn gai (some true) st = (true, st', calls) ∧
      calls.length = 1 ∧
      st'.heap.get st'.runas_ctx.host = st'.heap.get st'.user_ctx.host ∧
      st'.heap.get st'.runas_ctx.shost = st'.heap.get st'.user_ctx.shost ∧
      st'.runas_ctx.host ≠ st'.user_ctx.host ∧
      st'.runas_ctx.host ≠ st'.user_ctx.shost ∧
      st'.runas_ctx.shost ≠ st'.user_ctx.host ∧
      st'.runas_ctx.shost ≠ st'.user_ctx.shost ∧
      (st'.runas_ctx.shost = st'.runas_ctx.host ↔
        st'.user_ctx.shost = st'.user_ctx.host) := by
  obtain ⟨hwu, hws, hwr, hwrs⟩ := hwf
  have hrem : decide (st.heap.get st.runas_ctx.host ≠
      st.heap.get st.user_ctx.host) = false := by
    simp [hsame]
  cases hdot : canon.contains '.' with
  | true =>
    rw [cb_fqdn_user_ok_dot st hok hu hdot, hrem]
    set ST1 := fqdn_install_user
      ⟨⟨st.heap.cells ++ [canon, canon.takeWhile noDot], [], st.heap.freed⟩,
       st.user_ctx, st.runas_ctx⟩
      st.heap.cells.length (st.heap.cells.length + 1) with hST1
    have hcells1 : ST1.heap.cells =
        st.heap.cells ++ [canon, canon.takeWhile noDot] := by
      rw [hST1, install_user_cells]
    have hok1 : ST1.heap.okStream = [] := by
      rw [hST1, install_user_okStream]
    have huser1 : ST1.user_ctx =
        ⟨st.heap.cells.length, st.heap.cells.length + 1⟩ := by
      rw [hST1, install_user_user]
    have hal : ST1.user_ctx.shost ≠ ST1.user_ctx.host := by
      rw [huser1]
      exact Nat.succ_ne_self _
    have hL2 : ST1.heap.cells.length = st.heap.cells.length + 2 := by
      rw [hcells1]
      simp
    have hsh1 : ST1.user_ctx.shost < ST1.heap.cells.length := by
      rw [huser1, hL2]
      exact Nat.lt_succ_self _
    have hcu : ST1.heap.get ST1.user_ctx.host = canon := by
      rw [hST1, install_user_get, install_user_user]
      exact Heap.get_mk_two_a _ _ _ _ _
    have hcs : ST1.heap.get ST1.user_ctx.shost = canon.takeWhile noDot := by
      rw [hST1, install_user_get, install_user_user]
      exact Heap.get_mk_two_b _ _ _ _ _
    rw [fqdn_runas_local_noalias ST1 hok1 hal hsh1]
    set F := fqdn_install_runas
      ⟨⟨ST1.heap.cells ++
          [ST1.heap.get ST1.user_ctx.host, ST1.heap.get ST1.user_ctx.shost],
        [], ST1.heap.freed⟩,
       ST1.user_ctx, ST1.runas_ctx⟩
      ST1.heap.cells.length (ST1.heap.cells.length + 1) with hF
    have hFrh : F.runas_ctx.host = ST1.heap.cells.length := by
      rw [hF, install_runas_runas]
    have hFrs : F.runas_ctx.shost = ST1.heap.cells.length + 1 := by
      rw [hF, install_runas_runas]
    have hFuh : F.user_ctx.host = st.heap.cells.length := by
      rw [hF, install_runas_user, huser1]
    have hFus : F.user_ctx.shost = st.heap.cells.length + 1 := by
      rw [hF, install_runas_user, huser1]
    have hFget : ∀ a, F.heap.get a =
        Heap.get ⟨ST1.heap.cells ++
            [ST1.heap.get ST1.user_ctx.host, ST1.heap.get ST1.user_ctx.shost],
          [], ST1.heap.freed⟩ a := by
      intro a
      rw [hF, install_runas_get]
    have hlt1 : st.heap.cells.length < ST1.heap.cells.length := by
      rw [hL2]
      omega
    have hlt2 : st.heap.cells.length + 1 < ST1.heap.cells.length := by
      rw [hL2]
      omega
    have e1 : F.heap.get F.runas_ctx.host = canon := by
      rw [hFrh, hFget]
      exact (Heap.get_mk_two_a _ _ _ _ _).trans hcu
    have e2 : F.heap.get F.runas_ctx.shost = canon.takeWhile noDot := by
      rw [hFrs, hFget]
      exact (Heap.get_mk_two_b _ _ _ _ _).trans hcs
    have e3 : F.heap.get F.user_ctx.host = canon := by
      rw [hFuh, hFget, Heap.get_append_lt _ _ _ _ hlt1, hcells1]
      exact getD_append_two_a _ _ _ _
    have e4 : F.heap.get F.user_ctx.shost = canon.takeWhile noDot := by
      rw [hFus, hFget, Heap.get_append_lt _ _ _ _ hlt2, hcells1]
      exact getD_append_two_b _ _ _ _
    refine ⟨F, _, rfl, rfl, e1.trans e3.symm, e2.trans e4.symm, ?_, ?_, ?_, ?_, ?_⟩
    · rw [hFrh, hFuh, hL2]
      exact Nat.ne_of_gt (Nat.lt_add_of_pos_right (show 0 < 2 by decide))
    · rw [hFrh, hFus, hL2]
      exact Nat.ne_of_gt (Nat.lt_succ_self _)
    · rw [hFrs, hFuh, hL2]
      exact Nat.ne_of_gt
        (Nat.lt_succ_of_lt (Nat.lt_add_of_pos_right (show 0 < 2 by decide)))
    · rw [hFrs, hFus, hL2]
      exact Nat.ne_of_gt (Nat.add_lt_add_left (show 1 < 3 by decide) _)
    · rw [hFrs, hFrh, hFus, hFuh, hL2]
      constructor
      · intro h
        exact absurd h (Nat.succ_ne_self _)
      · intro h
        exact absurd h (Nat.succ_ne_self _)
  | false =>
    rw [cb_fqdn_user_ok_nodot st hok hu hdot, hrem]
    set ST1 := fqdn_install_user
      ⟨⟨st.heap.cells ++ [canon], [], st.heap.freed⟩,
       st.user_ctx, st.runas_ctx⟩
      st.heap.cells.length st.heap.cells.length with hST1
    have hcells1 : ST1.heap.cells = st.heap.cells ++ [canon] := by
      rw [hST1, install_user_cells]
    have hok1 : ST1.heap.okStream = [] := by
      rw [hST1, install_user_okStream]
    have huser1 : ST1.user_ctx =
        ⟨st.heap.cells.length, st.heap.cells.length⟩ := by
      rw [hST1, install_user_user]
    have hal : ST1.user_ctx.shost = ST1.user_ctx.host := by
      rw [huser1]
    have hL2 : ST1.heap.cells.length = st.heap.cells.length + 1 := by
      rw [hcells1]
      simp
    have hcu : ST1.heap.get ST1.user_ctx.host = canon := by
      rw [hST1, install_user_get, install_user_user]
      exact Heap.get_mk_one _ _ _ _
    rw [fqdn_runas_local_alias ST1 hok1 hal]
    set F := fqdn_install_runas
      ⟨⟨ST1.heap.cells ++ [ST1.heap.get ST1.user_ctx.host],
        [], ST1.heap.freed⟩,
       ST1.user_ctx, ST1.runas_ctx⟩
      ST1.heap.cells.length ST1.heap.cells.length with hF
    have hFrh : F.runas_ctx.host = ST1.heap.cells.length := by
      rw [hF, install_runas_runas]
    have hFrs : F.runas_ctx.shost = ST1.heap.cells.length := by
      rw [hF, install_runas_runas]
    have hFuh : F.user_ctx.host = st.heap.cells.length := by
      rw [hF, install_runas_user, huser1]
    have hFus : F.user_ctx.shost = st.heap.cells.length := by
      rw [hF, install_runas_user, huser1]
    have hFget : ∀ a, F.heap.get a =
        Heap.get ⟨ST1.heap.cells ++ [ST1.heap.get ST1.user_ctx.host],
          [], ST1.heap.freed⟩ a := by
      intro a
      rw [hF, install_runas_get]
    have hlt1 : st.heap.cells.length < ST1.heap.cells.length := by
      rw [hL2]
      omega
    have e1 : F.heap.get F.runas_ctx.host = canon := by
      rw [hFrh, hFget]
      exact (Heap.get_mk_one _ _ _ _).trans hcu
    have e2 : F.heap.get F.runas_ctx.shost = canon := by
      rw [hFrs, hFget]
      exact (Heap.get_mk_one _ _ _ _).trans hcu
    have e3 : F.heap.get F.user_ctx.host = canon := by
      rw [hFuh, hFget, Heap.get_append_lt _ _ _ _ hlt1, hcells1]
      exact getD_append_one _ _ _
    have e4 : F.heap.get F.user_ctx.shost = canon := by
      rw [hFus, hFget, Heap.get_append_lt _ _ _ _ hlt1, hcells1]
      exact getD_append_one _ _ _
    refine ⟨F, _, rfl, rfl, e1.trans e3.symm, e2.trans e4.symm, ?_, ?_, ?_, ?_, ?_⟩
    · rw [hFrh, hFuh, hL2]
      exact Nat.succ_ne_self _
    · rw [hFrh, hFus, hL2]
      exact Nat.succ_ne_self _
    · rw [hFrs, hFuh, hL2]
      exact Nat.succ_ne_self _
    · rw [hFrs, hFus, hL2]
      exact Nat.succ_ne_self _
    · rw [hFrs, hFrh, hFus, hFuh]
      constructor
      · intro _
        rfl
      · intro _
        rfl

/-- Witness for C3: both contexts name the same host `box`; one resolver
call happens and the target context receives a fresh copy. -/
theorem cb_fqdn_local_copy_witness :
    ∃ st' calls, cb_fqdn gaiC (some true) hostsC = (true, st', calls) ∧
      calls.length = 1 ∧
      st'.runas_ctx.host ≠ st'.user_ctx.host ∧
      st'.runas_ctx.shost ≠ st'.user_ctx.shost := by
  obtain ⟨st', calls, heq, hlen, _, _, h5, _, _, h8, _⟩ :=
    @cb_fqdn_local_copy gaiC hostsC "box.sudo.ws".toList rfl (by decide)
      rfl rfl
  exact ⟨st', calls, heq, hlen, h5, h8⟩

/-- Helper: whenever the runas phase of `cb_fqdn` succeeds, the invoking
context is untouched and the target context's new host addresses are fresh
(at or above the pre-phase heap bound). -/
theorem fqdn_runas_success_fresh {gai : CStr → Except Int CStr}
    (st2 : HostState) (hok : st2.heap.okStream = [])
    (hsh : st2.user_ctx.shost < st2.heap.cells.length)
    (rem : Bool) (st2' : HostState) (calls2 : List CStr)
    (heq : fqdn_runas gai rem st2 = (true, st2', calls2)) :
    st2'.user_ctx = st2.user_ctx ∧
    st2.heap.cells.length ≤ st2'.runas_ctx.host ∧
    st2.heap.cells.length ≤ st2'.runas_ctx.shost := by
  cases rem with
  | true =>
    cases hga : gai (st2.heap.get st2.runas_ctx.host) with
    | error e =>
      rw [fqdn_runas_remote_err st2 hga] at heq
      simp at heq
    | ok canon =>
      cases hdot : canon.contains '.' with
      | true =>
        rw [fqdn_runas_remote_dot st2 hok hga hdot] at heq
        rw [Prod.mk.injEq, Prod.mk.injEq] at heq
        obtain ⟨-, h2, -⟩ := heq
        subst h2
        refine ⟨?_, ?_, ?_⟩
        · rw [install_runas_user]
        · rw [install_runas_runas]
        · rw [install_runas_runas]
          exact Nat.le_succ _
      | false =>
        rw [fqdn_runas_remote_nodot st2 hok hga hdot] at heq
        rw [Prod.mk.injEq, Prod.mk.injEq] at heq
        obtain ⟨-, h2, -⟩ := heq
        subst h2
        refine ⟨?_, ?_, ?_⟩
        · rw [install_runas_user]
        · rw [install_runas_runas]
        · rw [install_runas_runas]
  | false =>
    by_cases hal : st2.user_ctx.shost = st2.user_ctx.host
    · rw [fqdn_runas_local_alias st2 hok hal] at heq
      rw [Prod.mk.injEq, Prod.mk.injEq] at heq
      obtain ⟨-, h2, -⟩ := heq
      subst h2
      refine ⟨?_, ?_, ?_⟩
      · rw [install_runas_user]
      · rw [install_runas_runas]
      · rw [install_runas_runas]
    · rw [fqdn_runas_local_noalias st2 hok hal hsh] at heq
      rw [Prod.mk.injEq, Prod.mk.injEq] at heq
      obtain ⟨-, h2, -⟩ := heq
      subst h2
      refine ⟨?_, ?_, ?_⟩
      · rw [install_runas_user]
      · rw [install_runas_runas]
      · rw [install_runas_runas]
        exact Nat.le_succ _

/-- Helper: after installing a fresh pair into the invoking context, a
successful runas phase leaves the two contexts with pairwise distinct
host addresses. -/
theorem fqdn_fresh_core {gai : CStr → Except Int CStr}
    (base : HostState) (lh sh : Addr) (rem : Bool) (st' : HostState)
    (calls2 : List CStr) (hok : base.heap.okStream = [])
    (hlh : lh < base.heap.cells.length) (hsh : sh < base.heap.cells.length)
    (heq : fqdn_runas gai rem (fqdn_install_user base lh sh) =
      (true, st', calls2)) :
    st'.runas_ctx.host ≠ st'.user_ctx.host ∧
    st'.runas_ctx.host ≠ st'.user_ctx.shost ∧
    st'.runas_ctx.shost ≠ st'.user_ctx.host ∧
    st'.runas_ctx.shost ≠ st'.user_ctx.shost := by
  have hok1 : (fqdn_install_user base lh sh).heap.okStream = [] := by
    rw [install_user_okStream]
    exact hok
  have hlen1 : (fqdn_install_user base lh sh).heap.cells.length =
      base.heap.cells.length := by
    rw [install_user_cells]
  have hsh1 : (fqdn_install_user base lh sh).user_ctx.shost <
      (fqdn_install_user base lh sh).heap.cells.length := by
    rw [install_user_user, hlen1]
    exact hsh
  obtain ⟨hu', hrh, hrs⟩ :=
    fqdn_runas_success_fresh (fqdn_install_user base lh sh) hok1 hsh1
      rem st' calls2 heq
  rw [hlen1] at hrh hrs
  have hstu : st'.user_ctx = ⟨lh, sh⟩ := by
    rw [hu', install_user_user]
  have h_h : st'.user_ctx.host < base.heap.cells.length := by
    rw [hstu]
    exact hlh
  have h_s : st'.user_ctx.shost < base.heap.cells.length := by
    rw [hstu]
    exact hsh
  exact ⟨(lt_of_lt_of_le h_h hrh).ne', (lt_of_lt_of_le h_s hrh).ne',
         (lt_of_lt_of_le h_h hrs).ne', (lt_of_lt_of_le h_s hrs).ne'⟩

/-- C5 counterexample: `get_hostname` makes the two contexts share host
storage outright — after it, the runas context's host and shost are the
very same allocations as the invoking context's, contradicting the claim
that the contexts never share storage. -/
theorem get_hostname_shares_storage :
    ∃ st, get_hostname (some "grid.sudo.ws".toList) ⟨[], [], []⟩ = some st ∧
      st.runas_ctx.host = st.user_ctx.host ∧
      st.runas_ctx.shost = st.user_ctx.shost := by
  refine ⟨_, get_hostname_dot "grid.sudo.ws".toList [] [] (by decide),
    rfl, rfl⟩

/-- C5 (amended): `cb_fqdn` maintains the exclusivity invariant — with
the fqdn feature enabled, whenever the call succeeds, the target
context's host and shost are storage-distinct from the invoking
context's host and shost; `get_hostname`, by contrast, deliberately makes
the target context alias the invoking context's strings. -/
theorem cb_fqdn_no_cross_sharing {gai : CStr → Except Int CStr}
    (st st' : HostState) (calls : List CStr)
    (hok : st.heap.okStream = []) (hwf : st.Wf)
    (heq : cb_fqdn gai (some true) st = (true, st', calls)) :
    st'.runas_ctx.host ≠ st'.user_ctx.host ∧
    st'.runas_ctx.host ≠ st'.user_ctx.shost ∧
    st'.runas_ctx.shost ≠ st'.user_ctx.host ∧
    st'.runas_ctx.shost ≠ st'.user_ctx.shost := by
  obtain ⟨hwu, hws, hwr, hwrs⟩ := hwf
  cases hga1 : gai (st.heap.get st.user_ctx.host) with
  | ok canon =>
    cases hdot : canon.contains '.' with
    | true =>
        rw [cb_fqdn_user_ok_dot st hok hga1 hdot] at heq
        rw [Prod.mk.injEq, Prod.mk.injEq] at heq
        obtain ⟨h1, h2, -⟩ := heq
        have heqR : fqdn_runas gai
          (decide (st.heap.get st.runas_ctx.host ≠
            st.heap.get st.user_ctx.host))
          (fqdn_install_user
            ⟨⟨st.heap.cells ++ [canon, canon.takeWhile noDot], [],
            st.heap.freed⟩, st.user_ctx, st.runas_ctx⟩
            st.heap.cells.length (st.heap.cells.length + 1)) =
            (true, st',
             (fqdn_runas gai
          (decide (st.heap.get st.runas_ctx.host ≠
            st.heap.get st.user_ctx.host))
          (fqdn_install_user
            ⟨⟨st.heap.cells ++ [canon, canon.takeWhile noDot], [],
            st.heap.freed⟩, st.user_ctx, st.runas_ctx⟩
            st.heap.cells.length (st.heap.cells.length + 1))).2.2) := by
          rw [← h1, ← h2]
        have hlh : st.heap.cells.length <
            (st.heap.cells ++ [canon, canon.takeWhile noDot]).length := by
          simp only [List.length_append, List.length_cons, List.length_nil]
          omega
        have hsh : st.heap.cells.length + 1 <
            (st.heap.cells ++ [canon, canon.takeWhile noDot]).length := by
          simp only [List.length_append, List.length_cons, List.length_nil]
          omega
        exact fqdn_fresh_core
          ⟨⟨st.heap.cells ++ [canon, canon.takeWhile noDot], [],
            st.heap.freed⟩, st.user_ctx, st.runas_ctx⟩
          st.heap.cells.length (st.heap.cells.length + 1) _ st' _ rfl hlh hsh heqR
    | false =>
        rw [cb_fqdn_user_ok_nodot st hok hga1 hdot] at heq
        rw [Prod.mk.injEq, Prod.mk.injEq] at heq
        obtain ⟨h1, h2, -⟩ := heq
        have heqR : fqdn_runas gai
          (decide (st.heap.get st.runas_ctx.host ≠
            st.heap.get st.user_ctx.host))
          (fqdn_install_user
            ⟨⟨st.heap.cells ++ [canon], [],
            st.heap.freed⟩, st.user_ctx, st.runas_ctx⟩
            st.heap.cells.length st.heap.cells.length) =
            (true, st',
             (fqdn_runas gai
          (decide (st.heap.get st.runas_ctx.host ≠
            st.heap.get st.user_ctx.host))
          (fqdn_install_user
            ⟨⟨st.heap.cells ++ [canon], [],
            st.heap.freed⟩, st.user_ctx, st.runas_ctx⟩
            st.heap.cells.length st.heap.cells.length)).2.2) := by
          rw [← h1, ← h2]
        have hlh : st.heap.cells.length <
            (st.heap.cells ++ [canon]).length := by
          simp only [List.length_append, List.length_cons, List.length_nil]
          omega
        have hsh : st.heap.cells.length <
            (st.heap.cells ++ [canon]).length := by
          simp only [List.length_append, List.length_cons, List.length_nil]
          omega
        exact fqdn_fresh_core
          ⟨⟨st.heap.cells ++ [canon], [],
            st.heap.freed⟩, st.user_ctx, st.runas_ctx⟩
          st.heap.cells.length st.heap.cells.length _ st' _ rfl hlh hsh heqR
  | error e =>
    cases hga2 : gai (st.heap.get st.runas_ctx.host) with
    | error e2 =>
      rw [cb_fqdn_both_fail st e e2 hga1 hga2] at heq
      simp at heq
    | ok canon =>
      cases hdot : canon.contains '.' with
      | true =>
        rw [cb_fqdn_retry_ok_dot st hok hga1 hga2 hdot] at heq
        rw [Prod.mk.injEq, Prod.mk.injEq] at heq
        obtain ⟨h1, h2, -⟩ := heq
        have heqR : fqdn_runas gai
          (decide (st.heap.get st.runas_ctx.host ≠
            st.heap.get st.user_ctx.host))
          (fqdn_install_user
            ⟨⟨st.heap.cells ++ [canon, canon.takeWhile noDot], [],
            st.heap.freed⟩, st.user_ctx, st.runas_ctx⟩
            st.heap.cells.length (st.heap.cells.length + 1)) =
            (true, st',
             (fqdn_runas gai
          (decide (st.heap.get st.runas_ctx.host ≠
            st.heap.get st.user_ctx.host))
          (fqdn_install_user
            ⟨⟨st.heap.cells ++ [canon, canon.takeWhile noDot], [],
            st.heap.freed⟩, st.user_ctx, st.runas_ctx⟩
            st.heap.cells.length (st.heap.cells.length + 1))).2.2) := by
          rw [← h1, ← h2]
        have hlh : st.heap.cells.length <
            (st.heap.cells ++ [canon, canon.takeWhile noDot]).length := by
          simp only [List.length_append, List.length_cons, List.length_nil]
          omega
        have hsh : st.heap.cells.length + 1 <
            (st.heap.cells ++ [canon, canon.takeWhile noDot]).length := by
          simp only [List.length_append, List.length_cons, List.length_nil]
          omega
        exact fqdn_fresh_core
          ⟨⟨st.heap.cells ++ [canon, canon.takeWhile noDot], [],
            st.heap.freed⟩, st.user_ctx, st.runas_ctx⟩
          st.heap.cells.length (st.heap.cells.length + 1) _ st' _ rfl hlh hsh heqR
      | false =>
        rw [cb_fqdn_retry_ok_nodot st hok hga1 hga2 hdot] at heq
        rw [Prod.mk.injEq, Prod.mk.injEq] at heq
        obtain ⟨h1, h2, -⟩ := heq
        have heqR : fqdn_runas gai
          (decide (st.heap.get st.runas_ctx.host ≠
            st.heap.get st.user_ctx.host))
          (fqdn_install_user
            ⟨⟨st.heap.cells ++ [canon], [],
            st.heap.freed⟩, st.user_ctx, st.runas_ctx⟩
            st.heap.cells.length st.heap.cells.length) =
            (true, st',
             (fqdn_runas gai
          (decide (st.heap.get st.runas_ctx.host ≠
            st.heap.get st.user_ctx.host))
          (fqdn_install_user
            ⟨⟨st.heap.cells ++ [canon], [],
            st.heap.freed⟩, st.user_ctx, st.runas_ctx⟩
            st.heap.cells.length st.heap.cells.length)).2.2) := by
          rw [← h1, ← h2]
        have hlh : st.heap.cells.length <
            (st.heap.cells ++ [canon]).length := by
          simp only [List.length_append, List.length_cons, List.length_nil]
          omega
        have hsh : st.heap.cells.length <
            (st.heap.cells ++ [canon]).length := by
          simp only [List.length_append, List.length_cons, List.length_nil]
          omega
        exact fqdn_fresh_core
          ⟨⟨st.heap.cells ++ [canon], [],
            st.heap.freed⟩, st.user_ctx, st.runas_ctx⟩
          st.heap.cells.length st.heap.cells.length _ st' _ rfl hlh hsh heqR

/-- Witness for the amended C5 at a concrete successful run. -/
theorem cb_fqdn_no_cross_sharing_witness :
    ∃ st' calls, cb_fqdn gaiC (some true) hostsC = (true, st', calls) ∧
      st'.runas_ctx.host ≠ st'.user_ctx.host := by
  have heq : cb_fqdn gaiC (some true) hostsC =
      (true, ⟨⟨["box".toList, "box.sudo.ws".toList, "box".toList,
                "box.sudo.ws".toList, "box".toList], [], [0, 0]⟩,
              ⟨1, 2⟩, ⟨3, 4⟩⟩, ["box".toList]) := by decide
  exact ⟨_, _, heq,
    (cb_fqdn_no_cross_sharing hostsC _ _ rfl (by decide) heq).1⟩

end Sudoers
